import Mathlib

/-!
# Verification of the Zephyr Ethernet L2 layer (subsys/net/ip/l2/ethernet/ethernet.c)

A shallow embedding of the Ethernet L2 adaptation layer: receive pipeline,
transmit pipeline, VLAN tag table management and the IPv4/IPv6 minimal-frame
padding fixup.  Definitions are translated from the C source; collaborators
(ARP, interface registry, address lookup) appear as parameters.  A few small
helpers that live in headers outside the translated file (address predicates,
packet accessors, error codes) are modelled from the specification and marked
as such in their doc comments.
-/

set_option autoImplicit false

namespace ZephyrEth

/-! ## Basic constants (wire-format type codes and sizes) -/

/-- Modelled from the spec: the Ethernet type code for IPv4 (`NET_ETH_PTYPE_IP`,
declared in a header outside the translated source). -/
def NET_ETH_PTYPE_IP : Nat := 0x0800

/-- Modelled from the spec: the Ethernet type code for ARP (`NET_ETH_PTYPE_ARP`). -/
def NET_ETH_PTYPE_ARP : Nat := 0x0806

/-- Modelled from the spec: the Ethernet type code for IPv6 (`NET_ETH_PTYPE_IPV6`). -/
def NET_ETH_PTYPE_IPV6 : Nat := 0x86dd

/-- Modelled from the spec: the VLAN tag protocol identifier (`NET_ETH_PTYPE_VLAN`). -/
def NET_ETH_PTYPE_VLAN : Nat := 0x8100

/-- Modelled from the spec: size of the plain Ethernet header
(`sizeof(struct net_eth_hdr)` = 6 dst + 6 src + 2 type = 14 octets). -/
def net_eth_hdr_size : Nat := 14

/-- Modelled from the spec: size of the VLAN-tagged Ethernet header
(`sizeof(struct net_eth_vlan_hdr)` = 6 dst + 6 src + 2 tpid + 2 tci + 2 type = 18). -/
def net_eth_vlan_hdr_size : Nat := 18

/-- Modelled from the spec: `NET_ETH_MINIMAL_FRAME_SIZE` (60 octets). -/
def NET_ETH_MINIMAL_FRAME_SIZE : Nat := 60

/-- Modelled from the spec: `NET_IPV6H_LEN`, the fixed IPv6 header size (40 octets). -/
def NET_IPV6H_LEN : Nat := 40

/-- Modelled from the spec: the "unspecified" VLAN tag sentinel
(`NET_VLAN_TAG_UNSPEC`), meaning "slot free / not a VLAN interface". -/
def NET_VLAN_TAG_UNSPEC : Nat := 0x0fff

/-! ## Link addresses -/

/-- A 6-octet Ethernet link address (`struct net_eth_addr`). -/
structure net_eth_addr where
  b0 : Nat
  b1 : Nat
  b2 : Nat
  b3 : Nat
  b4 : Nat
  b5 : Nat
deriving DecidableEq, Repr

/-- The broadcast link address constant (`broadcast_eth_addr`). -/
def broadcast_eth_addr : net_eth_addr := ⟨0xff, 0xff, 0xff, 0xff, 0xff, 0xff⟩

/-- `net_eth_broadcast_addr`: returns the broadcast address constant. -/
def net_eth_broadcast_addr : net_eth_addr := broadcast_eth_addr

/-- Modelled from the spec: `net_eth_is_addr_broadcast` (declared in a header
outside the translated source): true iff all six octets equal `0xFF`. -/
def net_eth_is_addr_broadcast (a : net_eth_addr) : Bool :=
  a.b0 == 0xff && a.b1 == 0xff && a.b2 == 0xff && a.b3 == 0xff &&
  a.b4 == 0xff && a.b5 == 0xff

/-- Modelled from the spec: `net_eth_is_addr_multicast` (declared in a header
outside the translated source): true iff the low bit of the first octet is
set (the standard Ethernet multicast bit). -/
def net_eth_is_addr_multicast (a : net_eth_addr) : Bool :=
  a.b0 % 2 == 1

/-- Modelled from the spec: `net_linkaddr_cmp` (header outside the translated
source): both sides here are 6-octet Ethernet addresses of equal length, so the
comparison reduces to octet-wise equality. -/
def net_linkaddr_cmp (a b : net_eth_addr) : Bool :=
  a == b

/-! ## Network interfaces, address families, verdicts -/

/-- The slice of `struct net_if` this layer observes: the interface's own link
address, its registry index (`net_if_get_by_iface`, negative when the interface
is not registered), whether its L2 is the Ethernet L2 (`net_if_l2(iface) ==
&NET_L2_GET_NAME(ETHERNET)`), and the `ETHERNET_HW_VLAN` capability bit of its
device (`net_eth_get_hw_capabilities`). -/
structure net_if where
  link_addr : net_eth_addr
  index : Int
  l2_is_ethernet : Bool
  hw_vlan : Bool
deriving DecidableEq, Repr

/-- Address family recorded on a packet (`sa_family_t`). -/
inductive sa_family where
  | af_unspec
  | af_inet
  | af_inet6
deriving DecidableEq, Repr

/-- Reason overlay for this layer's own `NET_DROP` verdicts.  The C code
returns a bare `NET_DROP`; the reasons distinguish the individual drop sites
named by the specification.  `external` tags a drop verdict forwarded verbatim
from the ARP collaborator. -/
inductive drop_reason where
  | unknownEtherType
  | notAddressedToUs
  | noRoute
  | arpFailed
  | external
deriving DecidableEq, Repr

/-- `enum net_verdict`, with the drop-reason overlay. -/
inductive net_verdict where
  | NET_OK
  | NET_CONTINUE
  | NET_DROP (reason : drop_reason)
deriving DecidableEq, Repr

/-- Verdict of the ARP collaborator's `net_arp_input`; forwarded verbatim by
the receive pipeline, with drops tagged `external`. -/
inductive arp_verdict where
  | arpOk
  | arpContinue
  | arpDrop
deriving DecidableEq, Repr

/-- Embeds the ARP collaborator's verdict into `net_verdict`. -/
def arp_verdict.to_net : arp_verdict → net_verdict
  | .arpOk => .NET_OK
  | .arpContinue => .NET_CONTINUE
  | .arpDrop => .NET_DROP .external

/-! ## Buffers and packets -/

/-- One fragment (`struct net_buf`): `bytes` is the underlying storage,
`offset` the current data-start position inside it (headroom is the region
before `offset`), and `len` the current data length.  The live data is
`bytes` from `offset` for `len` octets. -/
structure net_buf where
  offset : Nat
  len : Nat
  bytes : List Nat
deriving DecidableEq, Repr

/-- The slice of `struct net_pkt` this layer observes.  Link-address views
(`net_pkt_ll_src` / `net_pkt_ll_dst` / `net_pkt_ll_if`) are `none` when the
underlying address pointer is NULL.  Per the spec's data model the VLAN tag
(with its "unspecified" sentinel) and VLAN priority are separate fields; the
Tag Control Information accessors below combine and split them. -/
structure net_pkt where
  frags : List net_buf
  family : sa_family
  iface : net_if
  ll_reserve : Nat
  llSrc : Option net_eth_addr
  llDst : Option net_eth_addr
  ll_if : Option net_eth_addr
  vlan_tag : Nat
  vlan_priority : Nat
  priority : Nat
deriving DecidableEq, Repr

/-- Byte read with C's "whatever is in memory" semantics collapsed to a zero
default for out-of-range model reads. -/
def byteAt (l : List Nat) (i : Nat) : Nat :=
  l.getD i 0

/-- Reads a 16-bit big-endian field (`ntohs` of two consecutive octets). -/
def be16 (l : List Nat) (i : Nat) : Nat :=
  byteAt l i * 256 + byteAt l (i + 1)

/-- Writes a run of bytes starting at index `i` (in-place memory store;
out-of-range stores are dropped, which the callers' headroom invariant rules
out). -/
def setBytesAt (l : List Nat) (i : Nat) : List Nat → List Nat
  | [] => l
  | v :: vs => setBytesAt (l.set i v) (i + 1) vs

/-- Default fragment used to collapse C's undefined dereference of an empty
fragment chain. -/
def nilBuf : net_buf := ⟨0, 0, []⟩

/-- The packet's first fragment (`pkt->frags`). -/
def net_pkt_frag0 (pkt : net_pkt) : net_buf :=
  pkt.frags.headD nilBuf

/-- `net_pkt_ip_data(pkt)`: the first fragment's live data, where the IP
header sits once the link header has been pulled. -/
def ipData (pkt : net_pkt) : List Nat :=
  (net_pkt_frag0 pkt).bytes.drop (net_pkt_frag0 pkt).offset

/-- `net_pkt_ll(pkt)`: the first fragment's data minus the link-layer reserve,
i.e. where the Ethernet header starts. -/
def llData (pkt : net_pkt) : List Nat :=
  (net_pkt_frag0 pkt).bytes.drop ((net_pkt_frag0 pkt).offset - pkt.ll_reserve)

/-- Destination address field of an Ethernet header (octets 0–5); the offset
is identical in the plain and the VLAN-tagged header shapes. -/
def ethDst (l : List Nat) : net_eth_addr :=
  ⟨byteAt l 0, byteAt l 1, byteAt l 2, byteAt l 3, byteAt l 4, byteAt l 5⟩

/-- Source address field of an Ethernet header (octets 6–11). -/
def ethSrc (l : List Nat) : net_eth_addr :=
  ⟨byteAt l 6, byteAt l 7, byteAt l 8, byteAt l 9, byteAt l 10, byteAt l 11⟩

/-- `net_buf_pull` applied to the packet's first fragment: advances its data
start and shrinks its length by `n` octets (the C callers guarantee
`n <= len`; natural subtraction covers the defined behaviour). -/
def net_buf_pull_frag0 (pkt : net_pkt) (n : Nat) : net_pkt :=
  match pkt.frags with
  | [] => pkt
  | f :: fs => { pkt with frags := { f with offset := f.offset + n, len := f.len - n } :: fs }

/-- Modelled from the spec: `net_pkt_set_vlan_tci` (packet accessor in a header
outside the translated source): records a received Tag Control Information
field on the packet, as the 12-bit VLAN identifier plus the 3-bit priority. -/
def net_pkt_set_vlan_tci (pkt : net_pkt) (tci : Nat) : net_pkt :=
  { pkt with vlan_tag := tci % 4096, vlan_priority := tci / 8192 }

/-- Modelled from the spec: `net_pkt_vlan_tci` (packet accessor outside the
translated source): the Tag Control Information combining the packet's VLAN
priority (high 3 bits) and VLAN tag (low 12 bits). -/
def net_pkt_vlan_tci (pkt : net_pkt) : Nat :=
  pkt.vlan_priority * 8192 + pkt.vlan_tag

/-! ## Padding fixup (`ethernet_update_length`) -/

/-- The declared IP payload length read by `ethernet_update_length`: for
`AF_INET` the IPv4 total-length field (octets 2–3 of the IP header); otherwise
the IPv6 payload-length field (octets 4–5) plus the fixed IPv6 header size.
Both land in a `u16_t` local. -/
def eth_declared_len (pkt : net_pkt) : Nat :=
  if pkt.family == .af_inet then
    (be16 (ipData pkt) 2) % 65536
  else
    (be16 (ipData pkt) 4 + NET_IPV6H_LEN) % 65536

/-- The fragment walk of `ethernet_update_length`: fragments before the
declared-length boundary are kept, the fragment reaching it is truncated to
the remaining length, and the loop continues with `len = 0`, zeroing every
later fragment. -/
def eth_trim : Nat → List net_buf → List net_buf
  | _, [] => []
  | len, f :: fs =>
      if f.len < len then
        f :: eth_trim (len - f.len) fs
      else
        { f with len := len } :: eth_trim 0 fs

/-- `ethernet_update_length`: if the declared IP payload length is below the
46-octet Ethernet minimum payload, trim the sender's padding off the fragment
chain. -/
def ethernet_update_length (iface : net_if) (pkt : net_pkt) : net_pkt :=
  let len := eth_declared_len pkt
  if len < NET_ETH_MINIMAL_FRAME_SIZE - net_eth_hdr_size then
    { pkt with frags := eth_trim len pkt.frags }
  else
    pkt

/-! ### Lemmas about the fragment walk -/

theorem eth_trim_zero_cons (f : net_buf) (fs : List net_buf) :
    eth_trim 0 (f :: fs) = { f with len := 0 } :: eth_trim 0 fs := by
  simp [eth_trim]

theorem eth_trim_zero_idem (fs : List net_buf) :
    eth_trim 0 (eth_trim 0 fs) = eth_trim 0 fs := by
  induction fs with
  | nil => rfl
  | cons f fs ih =>
      rw [eth_trim_zero_cons, eth_trim_zero_cons, ih]

theorem eth_trim_idem (L : Nat) (fs : List net_buf) :
    eth_trim L (eth_trim L fs) = eth_trim L fs := by
  induction fs generalizing L with
  | nil => rfl
  | cons f fs ih =>
      by_cases h : f.len < L
      · rw [eth_trim, if_pos h, eth_trim, if_pos h, ih]
      · rw [eth_trim, if_neg h, eth_trim]
        have hL : ¬ ({ f with len := L } : net_buf).len < L := by simp
        rw [if_neg hL, eth_trim_zero_idem]

/-- `eth_trim` changes only the `len` fields: head octets and offset survive. -/
theorem eth_trim_head_bytes (L : Nat) (fs : List net_buf) :
    ((eth_trim L fs).headD nilBuf).bytes = (fs.headD nilBuf).bytes ∧
    ((eth_trim L fs).headD nilBuf).offset = (fs.headD nilBuf).offset := by
  cases fs with
  | nil => exact ⟨rfl, rfl⟩
  | cons f fs =>
      rw [eth_trim]
      by_cases h : f.len < L
      · rw [if_pos h]; exact ⟨rfl, rfl⟩
      · rw [if_neg h]; exact ⟨rfl, rfl⟩

theorem eth_declared_len_trim (pkt : net_pkt) (L : Nat) :
    eth_declared_len { pkt with frags := eth_trim L pkt.frags } = eth_declared_len pkt := by
  have hb := eth_trim_head_bytes L pkt.frags
  unfold eth_declared_len ipData net_pkt_frag0
  simp only [hb.1, hb.2]

theorem eth_declared_len_update (iface : net_if) (pkt : net_pkt) :
    eth_declared_len (ethernet_update_length iface pkt) = eth_declared_len pkt := by
  rw [ethernet_update_length]
  by_cases h : eth_declared_len pkt < NET_ETH_MINIMAL_FRAME_SIZE - net_eth_hdr_size
  · simp only [if_pos h, eth_declared_len_trim]
  · rw [if_neg h]

/-- C3: The padding fixup is idempotent: applying `ethernet_update_length`
twice in sequence to a packet yields the same packet (hence the same
fragment-chain lengths) as applying it once. -/
theorem ethernet_update_length_idempotent (iface : net_if) (pkt : net_pkt) :
    ethernet_update_length iface (ethernet_update_length iface pkt) =
      ethernet_update_length iface pkt := by
  by_cases h : eth_declared_len pkt < NET_ETH_MINIMAL_FRAME_SIZE - net_eth_hdr_size
  · have h2 : eth_declared_len (ethernet_update_length iface pkt) =
        eth_declared_len pkt := eth_declared_len_update iface pkt
    conv_lhs => rw [ethernet_update_length]
    rw [h2, if_pos h]
    conv_lhs => rw [ethernet_update_length, if_pos h]
    conv_rhs => rw [ethernet_update_length, if_pos h]
    simp [eth_trim_idem]
  · have h2 : eth_declared_len (ethernet_update_length iface pkt) =
        eth_declared_len pkt := eth_declared_len_update iface pkt
    conv_lhs => rw [ethernet_update_length]
    rw [h2, if_neg h]

/-! ## The VLAN tag table (`struct ethernet_context`) -/

/-- One VLAN table entry (`struct ethernet_vlan`): the tag (or the
"unspecified" sentinel) and the owning logical interface (`none` models the
NULL pointer of a slot never claimed by `ethernet_init`). -/
structure ethernet_vlan where
  tag : Nat
  iface : Option net_if
deriving DecidableEq, Repr

/-- The per-interface Ethernet L2 context (`struct ethernet_context`): the
fixed-capacity VLAN table, the enabled-interfaces bitmask (indexed by
interface registry index), the saturating enabled count (a signed counter in
the C source) and the initialization flag. -/
structure ethernet_context where
  vlan : List ethernet_vlan
  interfaces : Nat → Bool
  vlan_enabled : Int
  is_init : Bool

/-- `NET_VLAN_MAX_COUNT`, the table capacity: in the C source a configuration
constant equal to the length of the `vlan` array. -/
def net_vlan_max_count (ctx : ethernet_context) : Int :=
  (ctx.vlan.length : Int)

/-- `enable_vlan_iface`: sets the interface's bit in the enabled bitmask; a
negative registry index leaves the mask untouched. -/
def enable_vlan_iface (ctx : ethernet_context) (iface : net_if) : ethernet_context :=
  if iface.index < 0 then ctx
  else { ctx with interfaces := fun j => if j = iface.index.toNat then true else ctx.interfaces j }

/-- `disable_vlan_iface`: clears the interface's bit in the enabled bitmask. -/
def disable_vlan_iface (ctx : ethernet_context) (iface : net_if) : ethernet_context :=
  if iface.index < 0 then ctx
  else { ctx with interfaces := fun j => if j = iface.index.toNat then false else ctx.interfaces j }

/-- `is_vlan_enabled_for_iface`: tests the interface's bit in the enabled
bitmask. -/
def is_vlan_enabled_for_iface (ctx : ethernet_context) (iface : net_if) : Bool :=
  if iface.index < 0 then false
  else ctx.interfaces iface.index.toNat

/-- `net_eth_is_vlan_enabled`: true when the enabled count is non-zero and
either equals the table capacity (the "all interfaces use VLAN" fast path) or
the interface's bit is set in the enabled bitmask. -/
def net_eth_is_vlan_enabled (ctx : ethernet_context) (iface : net_if) : Bool :=
  if ctx.vlan_enabled != 0 then
    if ctx.vlan_enabled == net_vlan_max_count ctx then true
    else is_vlan_enabled_for_iface ctx iface
  else false

/-- The scan of `net_eth_get_vlan_iface`: slots with the "unspecified" tag
feed the first-non-VLAN fallback (the NULL-guard means only a slot holding an
interface can fill it); the first slot carrying the requested tag returns its
interface. -/
def vlan_iface_scan (tag : Nat) : List ethernet_vlan → Option net_if → Option net_if
  | [], first => first
  | e :: es, first =>
      if e.tag == NET_VLAN_TAG_UNSPEC then
        vlan_iface_scan tag es (if first.isNone then e.iface else first)
      else if e.tag == tag then e.iface
      else vlan_iface_scan tag es first

/-- `net_eth_get_vlan_iface` (the C function receives the physical interface
and fetches this context from it): the logical interface bound to `tag`, with
the first unspecified slot's interface as the non-VLAN fallback. -/
def net_eth_get_vlan_iface (ctx : ethernet_context) (tag : Nat) : Option net_if :=
  vlan_iface_scan tag ctx.vlan none

/-- The entry test used by `get_vlan`: same owning interface and same tag. -/
def vlan_entry_matches (iface : net_if) (tag : Nat) (e : ethernet_vlan) : Bool :=
  e.iface == some iface && e.tag == tag

/-- `get_vlan`: the first table entry with this (interface, tag) pair. -/
def get_vlan (ctx : ethernet_context) (iface : net_if) (tag : Nat) : Option ethernet_vlan :=
  ctx.vlan.find? (vlan_entry_matches iface tag)

/-- Result codes of the VLAN enable/disable operations, named as the spec
names them (`0`, `-EINVAL`, `-EPERM`, `-EBADF`, `-EALREADY`, `-ENOSPC`,
`-ESRCH` in the C source). -/
inductive vlan_result where
  | ok
  | invalidInterface
  | notInitialized
  | invalidTag
  | alreadyExists
  | noCapacity
  | notFound
deriving DecidableEq, Repr

/-- The claiming loop of `net_eth_vlan_enable`: the first free slot (tag
"unspecified") owned by `iface` receives the new tag; `none` when no such
slot exists. -/
def vlan_claim_slot (iface : net_if) (tag : Nat) : List ethernet_vlan → Option (List ethernet_vlan)
  | [] => none
  | e :: es =>
      if e.iface == some iface && e.tag == NET_VLAN_TAG_UNSPEC then
        some ({ e with tag := tag } :: es)
      else
        match vlan_claim_slot iface tag es with
        | some es2 => some (e :: es2)
        | none => none

/-- `net_eth_vlan_enable`: returns the result code and the updated context.
The driver's `vlan_setup` hook has no observable effect on the context and is
not modelled. -/
def net_eth_vlan_enable (ctx : ethernet_context) (iface : net_if) (tag : Nat) :
    vlan_result × ethernet_context :=
  if !iface.l2_is_ethernet then (.invalidInterface, ctx)
  else if !ctx.is_init then (.notInitialized, ctx)
  else if tag == NET_VLAN_TAG_UNSPEC then (.invalidTag, ctx)
  else if (get_vlan ctx iface tag).isSome then (.alreadyExists, ctx)
  else
    match vlan_claim_slot iface tag ctx.vlan with
    | none => (.noCapacity, ctx)
    | some vl =>
        let ctx1 := enable_vlan_iface { ctx with vlan := vl } iface
        let cnt := ctx1.vlan_enabled + 1
        (.ok, { ctx1 with vlan_enabled :=
          if cnt > net_vlan_max_count ctx1 then net_vlan_max_count ctx1 else cnt })

/-- The reset performed by `net_eth_vlan_disable` on the entry found by
`get_vlan`: the first matching entry's tag returns to "unspecified". -/
def vlan_clear_first (iface : net_if) (tag : Nat) : List ethernet_vlan → List ethernet_vlan
  | [] => []
  | e :: es =>
      if vlan_entry_matches iface tag e then
        { e with tag := NET_VLAN_TAG_UNSPEC } :: es
      else
        e :: vlan_clear_first iface tag es

/-- `net_eth_vlan_disable`: returns the result code and the updated context. -/
def net_eth_vlan_disable (ctx : ethernet_context) (iface : net_if) (tag : Nat) :
    vlan_result × ethernet_context :=
  if !iface.l2_is_ethernet then (.invalidInterface, ctx)
  else if tag == NET_VLAN_TAG_UNSPEC then (.invalidTag, ctx)
  else if (get_vlan ctx iface tag).isNone then (.notFound, ctx)
  else
    let ctx1 := disable_vlan_iface { ctx with vlan := vlan_clear_first iface tag ctx.vlan } iface
    let cnt := ctx1.vlan_enabled - 1
    (.ok, { ctx1 with vlan_enabled := if cnt < 0 then 0 else cnt })

/-- `ethernet_reserve`: the VLAN header size when VLAN is enabled for the
interface, else the plain header size. -/
def ethernet_reserve (ctx : ethernet_context) (iface : net_if) : Nat :=
  if net_eth_is_vlan_enabled ctx iface then net_eth_vlan_hdr_size
  else net_eth_hdr_size

/-- The claiming loop of `ethernet_init`: the first slot with a NULL owning
interface gets tag "unspecified" and this interface. -/
def vlan_init_claim (iface : net_if) : List ethernet_vlan → Option (List ethernet_vlan)
  | [] => none
  | e :: es =>
      if e.iface.isNone then
        some ({ tag := NET_VLAN_TAG_UNSPEC, iface := some iface } :: es)
      else
        match vlan_init_claim iface es with
        | some es2 => some (e :: es2)
        | none => none

/-- `ethernet_init`: a no-op without the hardware VLAN capability; otherwise
claims the first free table slot for this interface, clears the enabled
bitmask on first-ever initialization, and sets the initialized flag. -/
def ethernet_init (iface : net_if) (ctx : ethernet_context) : ethernet_context :=
  if !iface.hw_vlan then ctx
  else
    match vlan_init_claim iface ctx.vlan with
    | some vl =>
        { ctx with vlan := vl,
                   interfaces := if !ctx.is_init then (fun _ => false) else ctx.interfaces,
                   is_init := true }
    | none => { ctx with is_init := true }

/-- A context as C's static zero initialization leaves it: every slot
`{tag = 0, iface = NULL}`, empty bitmask, zero count, not initialized. -/
def ctx_zero (n : Nat) : ethernet_context :=
  { vlan := List.replicate n ⟨0, none⟩,
    interfaces := fun _ => false,
    vlan_enabled := 0,
    is_init := false }

/-- One VLAN management call, for stating properties of call sequences. -/
inductive vlan_op where
  | op_enable (iface : net_if) (tag : Nat)
  | op_disable (iface : net_if) (tag : Nat)

/-- Applies one VLAN management call to the context. -/
def vlan_step (ctx : ethernet_context) : vlan_op → ethernet_context
  | .op_enable i t => (net_eth_vlan_enable ctx i t).2
  | .op_disable i t => (net_eth_vlan_disable ctx i t).2

/-- Applies a sequence of VLAN management calls to the context. -/
def vlan_run (ops : List vlan_op) (ctx : ethernet_context) : ethernet_context :=
  ops.foldl vlan_step ctx

/-! ## Receive pipeline (`ethernet_recv`) -/

/-- The VLAN unwrap step of `ethernet_recv`: when VLAN is enabled for the
interface and the outer type field is the VLAN tag protocol identifier, the
Tag Control Information is recorded on the packet, the effective type is
re-read from the inner field and the consumed header widens to the VLAN
header size.  Returns (effective type, header length, packet). -/
def eth_recv_unwrap (ctx : ethernet_context) (iface : net_if) (pkt : net_pkt) :
    Nat × Nat × net_pkt :=
  let type0 := be16 (llData pkt) 12
  if net_eth_is_vlan_enabled ctx iface && (type0 == NET_ETH_PTYPE_VLAN) then
    (be16 (llData pkt) 16, net_eth_vlan_hdr_size,
     net_pkt_set_vlan_tci pkt (be16 (llData pkt) 14))
  else
    (type0, net_eth_hdr_size, pkt)

/-- The type switch of `ethernet_recv`: IPv4 and ARP type codes classify as
`AF_INET`, the IPv6 type code as `AF_INET6`, anything else is unknown. -/
def eth_recv_classify (t : Nat) : Option sa_family :=
  if t == NET_ETH_PTYPE_IP || t == NET_ETH_PTYPE_ARP then some .af_inet
  else if t == NET_ETH_PTYPE_IPV6 then some .af_inet6
  else none

/-- `ethernet_recv`: classify the inbound frame, record the link-address
views, filter frames not addressed to this interface, strip the link header,
dispatch ARP frames to the ARP collaborator (`arpInput` models
`net_arp_input`) and otherwise apply the padding fixup and continue. -/
def ethernet_recv (ctx : ethernet_context) (arpInput : net_pkt → arp_verdict)
    (iface : net_if) (pkt : net_pkt) : net_verdict × net_pkt :=
  match eth_recv_unwrap ctx iface pkt with
  | (etype, hdr_len, pkt1) =>
    match eth_recv_classify etype with
    | none => (.NET_DROP .unknownEtherType, pkt1)
    | some fam =>
        let src := ethSrc (llData pkt1)
        let dst := ethDst (llData pkt1)
        let pkt2 := { pkt1 with family := fam, llSrc := some src, llDst := some dst }
        if !net_eth_is_addr_broadcast dst && !net_eth_is_addr_multicast dst &&
           !net_linkaddr_cmp iface.link_addr dst then
          (.NET_DROP .notAddressedToUs, pkt2)
        else
          let pkt3 := net_buf_pull_frag0 { pkt2 with ll_reserve := hdr_len } hdr_len
          if fam == .af_inet && etype == NET_ETH_PTYPE_ARP then
            ((arpInput pkt3).to_net, pkt3)
          else
            (.NET_CONTINUE, ethernet_update_length iface pkt3)

/-! ## Transmit pipeline (`ethernet_send`) -/

/-- The six octets of a link address, for in-place header stores. -/
def addr_bytes (a : net_eth_addr) : List Nat :=
  [a.b0, a.b1, a.b2, a.b3, a.b4, a.b5]

/-- The two octets of a 16-bit field stored in network byte order (`htons`). -/
def be16_bytes (v : Nat) : List Nat :=
  [v / 256 % 256, v % 256]

/-- `NET_ETH_HDR(pkt)->dst` read as a value. -/
def read_hdr_dst (pkt : net_pkt) : net_eth_addr :=
  ethDst (llData pkt)

/-- `NET_ETH_HDR(pkt)->src` read as a value. -/
def read_hdr_src (pkt : net_pkt) : net_eth_addr :=
  ethSrc (llData pkt)

/-- Stores a link address into the destination field of the first fragment's
Ethernet header (the in-place writes of `check_if_dst_is_broadcast_or_mcast`
and of the IPv6-multicast branch of `ethernet_send`). -/
def set_hdr_dst0 (pkt : net_pkt) (a : net_eth_addr) : net_pkt :=
  match pkt.frags with
  | [] => pkt
  | f :: fs =>
      { pkt with frags :=
          { f with bytes := setBytesAt f.bytes (f.offset - pkt.ll_reserve) (addr_bytes a) } :: fs }

/-- The destination-address octets of the packet's IPv4 header
(`NET_IPV4_HDR(pkt)->dst`, octets 16–19 of the IP header). -/
def ipv4_dst_byte (pkt : net_pkt) (k : Nat) : Nat :=
  byteAt (ipData pkt) (16 + k)

/-- `check_if_dst_is_broadcast_or_mcast`: for the IPv4 limited-broadcast
destination, point the link destination at the broadcast constant; for a
destination with top octet 224, write the standard IPv4-multicast mapping
(`01:00:5e`, then the low 7 bits of the second octet — the `& 0x7f` store —
then the last two octets) into the header's destination field.  Both branches
set the link source to the interface's own address. -/
def check_if_dst_is_broadcast_or_mcast (iface : net_if) (pkt : net_pkt) :
    Bool × net_pkt :=
  if ipv4_dst_byte pkt 0 == 255 && ipv4_dst_byte pkt 1 == 255 &&
     ipv4_dst_byte pkt 2 == 255 && ipv4_dst_byte pkt 3 == 255 then
    (true, { pkt with llDst := some broadcast_eth_addr,
                      llSrc := some iface.link_addr })
  else if ipv4_dst_byte pkt 0 == 224 then
    let mapped : net_eth_addr :=
      ⟨0x01, 0x00, 0x5e, ipv4_dst_byte pkt 1 % 128,
       ipv4_dst_byte pkt 2, ipv4_dst_byte pkt 3⟩
    (true, { set_hdr_dst0 pkt mapped with llSrc := some iface.link_addr })
  else
    (false, pkt)

/-- The source-address octets of the packet's IPv6 header (octets 8–23). -/
def ipv6_src_bytes (pkt : net_pkt) : List Nat :=
  ((ipData pkt).drop 8).take 16

/-- The source-address octets of the packet's IPv4 header (octets 12–15). -/
def ipv4_src_bytes (pkt : net_pkt) : List Nat :=
  ((ipData pkt).drop 12).take 4

/-- The table scan of `set_vlan_tag`: the first entry with a concrete tag
owned by the effective interface. -/
def vlan_tag_scan (iface : net_if) : List ethernet_vlan → Option Nat
  | [] => none
  | e :: es =>
      if e.tag == NET_VLAN_TAG_UNSPEC || e.iface != some iface then
        vlan_tag_scan iface es
      else
        some e.tag

/-- `set_vlan_tag`: short-circuits when the packet already carries a concrete
tag; otherwise prefers the attached interface owning the packet's
network-layer source address (`v6_lookup` / `v4_lookup` model
`net_if_ipv6_addr_lookup` / `net_if_ipv4_addr_lookup`) and scans the table
for that interface's tag; no match is a `NET_DROP`. -/
def set_vlan_tag (ctx : ethernet_context)
    (v6_lookup v4_lookup : List Nat → Option net_if)
    (iface : net_if) (pkt : net_pkt) : net_verdict × net_pkt :=
  if pkt.vlan_tag != NET_VLAN_TAG_UNSPEC then (.NET_OK, pkt)
  else
    let iface1 :=
      if pkt.family == .af_inet6 then
        match v6_lookup (ipv6_src_bytes pkt) with
        | some target => target
        | none => iface
      else iface
    let iface2 :=
      if pkt.family == .af_inet then
        match v4_lookup (ipv4_src_bytes pkt) with
        | some target => target
        | none => iface1
      else iface1
    match vlan_tag_scan iface2 ctx.vlan with
    | some t => (.NET_OK, { pkt with vlan_tag := t })
    | none => (.NET_DROP .noRoute, pkt)

/-- `set_vlan_priority`: converts the packet priority to the VLAN priority
(the source marks this one-to-one mapping as a simplification). -/
def set_vlan_priority (ctx : ethernet_context) (pkt : net_pkt) : net_pkt :=
  { pkt with vlan_priority := pkt.priority }

/-- `net_eth_fill_header`: overlays a plain or VLAN-tagged Ethernet header
onto the fragment's headroom (`frag->data - net_pkt_ll_reserve(pkt)`).  The
C source guards each address copy by a pointer-identity check; when that
guard fires the supplied pointer aliases the header field itself, so the
store below is observationally identical and the guard is elided. -/
def net_eth_fill_header (ctx : ethernet_context) (pkt : net_pkt) (frag : net_buf)
    (ptype : Nat) (src dst : Option net_eth_addr) : net_buf :=
  let base := frag.offset - pkt.ll_reserve
  if net_eth_is_vlan_enabled ctx pkt.iface then
    let b1 := match dst with
      | some d => setBytesAt frag.bytes base (addr_bytes d)
      | none => frag.bytes
    let b2 := match src with
      | some s => setBytesAt b1 (base + 6) (addr_bytes s)
      | none => b1
    let b3 := setBytesAt b2 (base + 16) (be16_bytes ptype)
    let b4 := setBytesAt b3 (base + 12) (be16_bytes NET_ETH_PTYPE_VLAN)
    let b5 := setBytesAt b4 (base + 14) (be16_bytes (net_pkt_vlan_tci pkt))
    { frag with bytes := b5 }
  else
    let b1 := match dst with
      | some d => setBytesAt frag.bytes base (addr_bytes d)
      | none => frag.bytes
    let b2 := match src with
      | some s => setBytesAt b1 (base + 6) (addr_bytes s)
      | none => b1
    let b3 := setBytesAt b2 (base + 12) (be16_bytes ptype)
    { frag with bytes := b3 }

/-- The per-fragment header loop of `ethernet_send`: every fragment's
headroom receives a header with the packet's resolved source and destination
views. -/
def eth_fill_all (ctx : ethernet_context) (pkt : net_pkt) (ptype : Nat) : net_pkt :=
  { pkt with frags :=
      pkt.frags.map (fun f => net_eth_fill_header ctx pkt f ptype pkt.llSrc pkt.llDst) }

/-- The `setup_hdr` tail of `ethernet_send`: select the outer type code from
the family, resolve the VLAN tag and priority when VLAN is enabled on the
interface (dropping on a missing route), fill every fragment's header and
hand the packet to the transmit queue. -/
def eth_send_setup_hdr (ctx : ethernet_context)
    (v6_lookup v4_lookup : List Nat → Option net_if)
    (iface : net_if) (pkt : net_pkt) : net_verdict × net_pkt :=
  let ptype := if pkt.family == .af_inet then NET_ETH_PTYPE_IP else NET_ETH_PTYPE_IPV6
  if net_eth_is_vlan_enabled ctx iface then
    match set_vlan_tag ctx v6_lookup v4_lookup iface pkt with
    | (.NET_DROP r, pkt1) => (.NET_DROP r, pkt1)
    | (_, pkt1) =>
        let pkt2 := set_vlan_priority ctx pkt1
        (.NET_OK, eth_fill_all ctx pkt2 ptype)
  else
    (.NET_OK, eth_fill_all ctx pkt ptype)

/-- `ethernet_send`: for IPv4, resolve broadcast/multicast destinations
directly or defer to the ARP collaborator (`arp_prepare` models
`net_arp_prepare`; a different returned packet replaces the original, and an
ARP-prepared packet is queued without re-filling headers); for other
families, repair a broadcast/multicast source view and default an unset
destination to the derived IPv6 multicast address or to broadcast; then run
the `setup_hdr` tail. -/
def ethernet_send (ctx : ethernet_context)
    (arp_prepare : net_pkt → Option net_pkt)
    (v6_lookup v4_lookup : List Nat → Option net_if)
    (iface : net_if) (pkt : net_pkt) : net_verdict × net_pkt :=
  if pkt.family == .af_inet then
    match check_if_dst_is_broadcast_or_mcast iface pkt with
    | (true, pkt1) =>
        let pkt2 :=
          if pkt1.llDst.isNone then { pkt1 with llDst := some (read_hdr_dst pkt1) }
          else pkt1
        eth_send_setup_hdr ctx v6_lookup v4_lookup iface pkt2
    | (false, pkt1) =>
        match arp_prepare pkt1 with
        | none => (.NET_DROP .arpFailed, pkt1)
        | some arp_pkt =>
            let pkt2 := { arp_pkt with llSrc := some (read_hdr_src arp_pkt),
                                       llDst := some (read_hdr_dst arp_pkt) }
            (.NET_OK, pkt2)
  else
    let srcbm := match pkt.llSrc with
      | some a => net_eth_is_addr_broadcast a || net_eth_is_addr_multicast a
      | none => false
    let pkt1 := if srcbm then { pkt with llSrc := pkt.ll_if } else pkt
    let pkt2 :=
      if pkt1.llDst.isNone then
        if pkt1.family == .af_inet6 && byteAt (ipData pkt1) 24 == 0xff then
          let d : net_eth_addr :=
            ⟨0x33, 0x33, byteAt (ipData pkt1) 36, byteAt (ipData pkt1) 37,
             byteAt (ipData pkt1) 38, byteAt (ipData pkt1) 39⟩
          { set_hdr_dst0 pkt1 d with llDst := some d }
        else
          { pkt1 with llDst := some broadcast_eth_addr }
      else pkt1
    eth_send_setup_hdr ctx v6_lookup v4_lookup iface pkt2

/-! ## C7: `net_eth_get_vlan_iface` -/

/-- The specification-side reading of the lookup, for comparison with the
translated `net_eth_get_vlan_iface`: the first entry carrying `tag` wins;
otherwise the interface of the first "unspecified" slot that holds one. -/
def vlan_iface_lookup_spec (ctx : ethernet_context) (tag : Nat) : Option net_if :=
  match ctx.vlan.find? (fun e => !(e.tag == NET_VLAN_TAG_UNSPEC) && e.tag == tag) with
  | some e => e.iface
  | none => ctx.vlan.findSome? (fun e => if e.tag == NET_VLAN_TAG_UNSPEC then e.iface else none)

theorem vlan_iface_scan_eq (tag : Nat) (l : List ethernet_vlan) (first : Option net_if) :
    vlan_iface_scan tag l first =
      match l.find? (fun e => !(e.tag == NET_VLAN_TAG_UNSPEC) && e.tag == tag) with
      | some e => e.iface
      | none =>
          match first with
          | some w => some w
          | none => l.findSome? (fun e => if e.tag == NET_VLAN_TAG_UNSPEC then e.iface else none) := by
  induction l generalizing first with
  | nil =>
      cases first <;> simp [vlan_iface_scan]
  | cons e es ih =>
      by_cases h1 : e.tag == NET_VLAN_TAG_UNSPEC
      · rw [vlan_iface_scan, if_pos h1]
        rw [List.find?_cons_of_neg _ (by simp [h1]), ih]
        cases hfind : List.find? (fun e => !(e.tag == NET_VLAN_TAG_UNSPEC) && e.tag == tag) es with
        | some e2 => rfl
        | none =>
            cases first with
            | some w => rfl
            | none =>
                have h1' : e.tag = NET_VLAN_TAG_UNSPEC := by simpa using h1
                simp only [List.findSome?_cons, h1', if_pos]
                cases e.iface <;> rfl
      · rw [vlan_iface_scan, if_neg h1]
        by_cases h2 : e.tag == tag
        · rw [if_pos h2, List.find?_cons_of_pos _ (by simp [h1, h2])]
        · rw [if_neg h2, List.find?_cons_of_neg _ (by simp [h1, h2]), ih]
          cases first with
          | some w => rfl
          | none =>
              have h1' : ¬ e.tag = NET_VLAN_TAG_UNSPEC := by simpa using h1
              simp [List.findSome?_cons, h1']

/-- A concrete registered Ethernet interface used in witnesses. -/
def iface_a : net_if :=
  { link_addr := ⟨0x02, 0x00, 0x00, 0x00, 0x00, 0x01⟩,
    index := 1, l2_is_ethernet := true, hw_vlan := true }

/-- A reachable one-slot context whose only table entry carries the concrete
tag 7: zero-initialized context, then `ethernet_init`, then a successful
`net_eth_vlan_enable(iface_a, 7)`. -/
def ctx_c7 : ethernet_context :=
  (net_eth_vlan_enable (ethernet_init iface_a (ctx_zero 1)) iface_a 7).2

/-- C7 counterexample: the claim says the lookup returns "none" only when the
table is completely empty, but on this reachable context the table holds a
concrete entry (tag 7, a real interface) and the lookup for tag 9 still
returns "none": there is no slot with the unspecified sentinel to act as the
fallback. -/
theorem net_eth_get_vlan_iface_none_nonempty :
    ctx_c7.vlan = [⟨7, some iface_a⟩] ∧
    net_eth_get_vlan_iface ctx_c7 9 = none := by
  constructor
  · rfl
  · rfl

/-- C7 (amended): `net_eth_get_vlan_iface` returns the interface of the first
table entry carrying `tag`; if no entry carries `tag`, the interface of the
first slot whose tag is the unspecified sentinel and which holds an
interface; and it returns "none" exactly when neither exists — which can
happen even when the table is not empty. -/
theorem net_eth_get_vlan_iface_spec (ctx : ethernet_context) (tag : Nat) :
    net_eth_get_vlan_iface ctx tag = vlan_iface_lookup_spec ctx tag := by
  rw [net_eth_get_vlan_iface, vlan_iface_lookup_spec, vlan_iface_scan_eq]

/-! ## Lemmas about the table operations -/

theorem vlan_claim_slot_length (iface : net_if) (tag : Nat) :
    ∀ (l vl : List ethernet_vlan),
      vlan_claim_slot iface tag l = some vl → vl.length = l.length := by
  intro l
  induction l with
  | nil => intro vl h; simp [vlan_claim_slot] at h
  | cons e es ih =>
      intro vl h
      rw [vlan_claim_slot] at h
      by_cases hc : (e.iface == some iface && e.tag == NET_VLAN_TAG_UNSPEC) = true
      · rw [if_pos hc] at h
        cases h
        simp
      · rw [if_neg hc] at h
        cases hes : vlan_claim_slot iface tag es with
        | some es2 =>
            rw [hes] at h
            cases h
            simp [ih es2 hes]
        | none => rw [hes] at h; cases h

theorem vlan_clear_first_length (iface : net_if) (tag : Nat) :
    ∀ l : List ethernet_vlan, (vlan_clear_first iface tag l).length = l.length := by
  intro l
  induction l with
  | nil => rfl
  | cons e es ih =>
      rw [vlan_clear_first]
      by_cases hc : vlan_entry_matches iface tag e = true
      · rw [if_pos hc]; simp
      · rw [if_neg hc]; simp [ih]

theorem vlan_claim_slot_of_free (iface : net_if) (tag : Nat) :
    ∀ l : List ethernet_vlan,
      (∃ e ∈ l, e.iface = some iface ∧ e.tag = NET_VLAN_TAG_UNSPEC) →
      ∃ vl, vlan_claim_slot iface tag l = some vl := by
  intro l
  induction l with
  | nil => intro h; simp at h
  | cons e es ih =>
      intro h
      rw [vlan_claim_slot]
      by_cases hc : (e.iface == some iface && e.tag == NET_VLAN_TAG_UNSPEC) = true
      · rw [if_pos hc]
        exact ⟨_, rfl⟩
      · rw [if_neg hc]
        have hes : ∃ e2 ∈ es, e2.iface = some iface ∧ e2.tag = NET_VLAN_TAG_UNSPEC := by
          rcases h with ⟨e2, hmem, hif, htg⟩
          rcases List.mem_cons.mp hmem with heq | hmem2
          · exfalso; apply hc; subst heq; simp [hif, htg]
          · exact ⟨e2, hmem2, hif, htg⟩
        rcases ih hes with ⟨vl, hvl⟩
        exact ⟨e :: vl, by rw [hvl]⟩

theorem vlan_claim_slot_mem (iface : net_if) (tag : Nat) :
    ∀ (l vl : List ethernet_vlan),
      vlan_claim_slot iface tag l = some vl →
      ∃ e ∈ vl, vlan_entry_matches iface tag e = true := by
  intro l
  induction l with
  | nil => intro vl h; simp [vlan_claim_slot] at h
  | cons e es ih =>
      intro vl h
      rw [vlan_claim_slot] at h
      by_cases hc : (e.iface == some iface && e.tag == NET_VLAN_TAG_UNSPEC) = true
      · rw [if_pos hc] at h
        cases h
        refine ⟨{ e with tag := tag }, List.mem_cons_self _ _, ?_⟩
        have hif : (e.iface == some iface) = true := by
          have := hc; simp only [Bool.and_eq_true] at this; exact this.1
        simp [vlan_entry_matches, hif]
      · rw [if_neg hc] at h
        cases hes : vlan_claim_slot iface tag es with
        | some es2 =>
            rw [hes] at h
            cases h
            rcases ih es2 hes with ⟨e2, hmem, hm⟩
            exact ⟨e2, List.mem_cons_of_mem _ hmem, hm⟩
        | none => rw [hes] at h; cases h

theorem vlan_clear_claim_none (iface : net_if) (tag : Nat)
    (htag : (tag == NET_VLAN_TAG_UNSPEC) = false) :
    ∀ (l vl : List ethernet_vlan),
      vlan_claim_slot iface tag l = some vl →
      (∀ e ∈ l, vlan_entry_matches iface tag e = false) →
      ∀ e ∈ vlan_clear_first iface tag vl, vlan_entry_matches iface tag e = false := by
  intro l
  induction l with
  | nil => intro vl h; simp [vlan_claim_slot] at h
  | cons e es ih =>
      intro vl hclaim hall
      rw [vlan_claim_slot] at hclaim
      by_cases hc : (e.iface == some iface && e.tag == NET_VLAN_TAG_UNSPEC) = true
      · rw [if_pos hc] at hclaim
        cases hclaim
        have hm : vlan_entry_matches iface tag { e with tag := tag } = true := by
          have hif : (e.iface == some iface) = true := by
            have := hc; simp only [Bool.and_eq_true] at this; exact this.1
          simp [vlan_entry_matches, hif]
        rw [vlan_clear_first, if_pos hm]
        intro e2 hmem
        rcases List.mem_cons.mp hmem with heq | hmem2
        · subst heq
          have hne : (NET_VLAN_TAG_UNSPEC == tag) = false := by
            have : ¬ tag = NET_VLAN_TAG_UNSPEC := by simpa using htag
            simp [Ne.symm this]
          simp [vlan_entry_matches, hne]
        · exact hall e2 (List.mem_cons_of_mem _ hmem2)
      · rw [if_neg hc] at hclaim
        cases hes : vlan_claim_slot iface tag es with
        | some es2 =>
            rw [hes] at hclaim
            cases hclaim
            have hme : vlan_entry_matches iface tag e = false :=
              hall e (List.mem_cons_self _ _)
            rw [vlan_clear_first, if_neg (by simp [hme])]
            intro e2 hmem
            rcases List.mem_cons.mp hmem with heq | hmem2
            · subst heq; exact hme
            · exact ih es2 hes (fun x hx => hall x (List.mem_cons_of_mem _ hx)) e2 hmem2
        | none => rw [hes] at hclaim; cases hclaim

theorem enable_vlan_iface_vlan (c : ethernet_context) (i : net_if) :
    (enable_vlan_iface c i).vlan = c.vlan := by
  unfold enable_vlan_iface; split <;> simp

theorem enable_vlan_iface_count (c : ethernet_context) (i : net_if) :
    (enable_vlan_iface c i).vlan_enabled = c.vlan_enabled := by
  unfold enable_vlan_iface; split <;> simp

theorem enable_vlan_iface_init (c : ethernet_context) (i : net_if) :
    (enable_vlan_iface c i).is_init = c.is_init := by
  unfold enable_vlan_iface; split <;> simp

theorem enable_vlan_iface_bit (c : ethernet_context) (i : net_if) (h : ¬ i.index < 0) :
    (enable_vlan_iface c i).interfaces i.index.toNat = true := by
  unfold enable_vlan_iface
  rw [if_neg h]
  simp

theorem disable_vlan_iface_vlan (c : ethernet_context) (i : net_if) :
    (disable_vlan_iface c i).vlan = c.vlan := by
  unfold disable_vlan_iface; split <;> simp

theorem disable_vlan_iface_count (c : ethernet_context) (i : net_if) :
    (disable_vlan_iface c i).vlan_enabled = c.vlan_enabled := by
  unfold disable_vlan_iface; split <;> simp

theorem disable_vlan_iface_init (c : ethernet_context) (i : net_if) :
    (disable_vlan_iface c i).is_init = c.is_init := by
  unfold disable_vlan_iface; split <;> simp

theorem net_eth_vlan_enable_cases (ctx : ethernet_context) (iface : net_if) (tag : Nat) :
    ((net_eth_vlan_enable ctx iface tag).1 ≠ .ok ∧ (net_eth_vlan_enable ctx iface tag).2 = ctx) ∨
    ((net_eth_vlan_enable ctx iface tag).1 = .ok ∧
      ∃ vl, vlan_claim_slot iface tag ctx.vlan = some vl ∧
        (net_eth_vlan_enable ctx iface tag).2.vlan = vl ∧
        (net_eth_vlan_enable ctx iface tag).2.is_init = ctx.is_init ∧
        (net_eth_vlan_enable ctx iface tag).2.vlan_enabled =
          (if ctx.vlan_enabled + 1 > (ctx.vlan.length : Int) then (ctx.vlan.length : Int)
           else ctx.vlan_enabled + 1) ∧
        (¬ iface.index < 0 →
          (net_eth_vlan_enable ctx iface tag).2.interfaces iface.index.toNat = true)) := by
  unfold net_eth_vlan_enable
  by_cases h1 : iface.l2_is_ethernet
  case neg => left; simp [h1]
  by_cases h2 : ctx.is_init
  case neg => left; simp [h1, h2]
  by_cases h3 : (tag == NET_VLAN_TAG_UNSPEC) = true
  case pos => left; simp [h1, h2, h3]
  by_cases h4 : (get_vlan ctx iface tag).isSome = true
  case pos => left; simp [h1, h2, h3, h4]
  cases hclaim : vlan_claim_slot iface tag ctx.vlan with
  | none => left; simp [h1, h2, h3, h4, hclaim]
  | some vl =>
      right
      have hlen : vl.length = ctx.vlan.length := vlan_claim_slot_length iface tag _ _ hclaim
      refine ⟨by simp [h1, h2, h3, h4, hclaim], vl, rfl, ?_, ?_, ?_, ?_⟩
      · simp [h1, h2, h3, h4, hclaim, enable_vlan_iface_vlan]
      · simp [h1, h2, h3, h4, hclaim, enable_vlan_iface_init, h2]
      · simp [h1, h2, h3, h4, hclaim, net_vlan_max_count, enable_vlan_iface_vlan,
              enable_vlan_iface_count, hlen]
      · intro hidx
        simpa [h1, h2, h3, h4, hclaim] using
          enable_vlan_iface_bit { ctx with vlan := vl, is_init := true } iface hidx

theorem net_eth_vlan_disable_cases (ctx : ethernet_context) (iface : net_if) (tag : Nat) :
    ((net_eth_vlan_disable ctx iface tag).1 ≠ .ok ∧ (net_eth_vlan_disable ctx iface tag).2 = ctx) ∨
    ((net_eth_vlan_disable ctx iface tag).1 = .ok ∧
      (net_eth_vlan_disable ctx iface tag).2.vlan = vlan_clear_first iface tag ctx.vlan ∧
      (net_eth_vlan_disable ctx iface tag).2.is_init = ctx.is_init ∧
      (net_eth_vlan_disable ctx iface tag).2.vlan_enabled =
        (if ctx.vlan_enabled - 1 < 0 then 0 else ctx.vlan_enabled - 1)) := by
  unfold net_eth_vlan_disable
  by_cases h1 : iface.l2_is_ethernet
  case neg => left; simp [h1]
  by_cases h2 : (tag == NET_VLAN_TAG_UNSPEC) = true
  case pos => left; simp [h1, h2]
  by_cases h3 : (get_vlan ctx iface tag).isNone = true
  case pos => left; simp [h1, h2, h3]
  right
  refine ⟨by simp [h1, h2, h3], ?_, ?_, ?_⟩
  · simp [h1, h2, h3, disable_vlan_iface_vlan]
  · simp [h1, h2, h3, disable_vlan_iface_init]
  · simp [h1, h2, h3, disable_vlan_iface_count]

/-! ## C8: the enabled count stays within [0, capacity] -/

theorem vlan_step_invariant (ctx : ethernet_context) (op : vlan_op)
    (h0 : 0 ≤ ctx.vlan_enabled) (h1 : ctx.vlan_enabled ≤ (ctx.vlan.length : Int)) :
    0 ≤ (vlan_step ctx op).vlan_enabled ∧
    (vlan_step ctx op).vlan_enabled ≤ ((vlan_step ctx op).vlan.length : Int) := by
  cases op with
  | op_enable i t =>
      rcases net_eth_vlan_enable_cases ctx i t with ⟨_, heq⟩ | ⟨_, vl, hclaim, hvl, _, hcnt, _⟩
      · simp only [vlan_step, heq]
        exact ⟨h0, h1⟩
      · have hlen : vl.length = ctx.vlan.length := vlan_claim_slot_length i t _ _ hclaim
        simp only [vlan_step, hcnt, hvl, hlen]
        constructor
        · split <;> omega
        · split <;> omega
  | op_disable i t =>
      rcases net_eth_vlan_disable_cases ctx i t with ⟨_, heq⟩ | ⟨_, hvl, _, hcnt⟩
      · simp only [vlan_step, heq]
        exact ⟨h0, h1⟩
      · have hlen : (vlan_clear_first i t ctx.vlan).length = ctx.vlan.length :=
          vlan_clear_first_length i t ctx.vlan
        simp only [vlan_step, hcnt, hvl, hlen]
        constructor
        · split <;> omega
        · split <;> omega

theorem vlan_run_invariant :
    ∀ (ops : List vlan_op) (ctx : ethernet_context),
      0 ≤ ctx.vlan_enabled → ctx.vlan_enabled ≤ (ctx.vlan.length : Int) →
      0 ≤ (vlan_run ops ctx).vlan_enabled ∧
      (vlan_run ops ctx).vlan_enabled ≤ ((vlan_run ops ctx).vlan.length : Int) := by
  intro ops
  induction ops with
  | nil => intro ctx h0 h1; exact ⟨h0, h1⟩
  | cons op ops ih =>
      intro ctx h0 h1
      have hs := vlan_step_invariant ctx op h0 h1
      exact ih (vlan_step ctx op) hs.1 hs.2

/-- C8: starting from any context whose enabled count is within bounds (in
particular the zero-initialized one), every sequence of enable/disable calls
keeps the count within `[0, capacity]`; a successful enable increments it
saturating at the table capacity, and a successful disable decrements it
floored at zero. -/
theorem vlan_enabled_count_bounded (ctx : ethernet_context)
    (h0 : 0 ≤ ctx.vlan_enabled) (h1 : ctx.vlan_enabled ≤ net_vlan_max_count ctx) :
    (∀ ops : List vlan_op,
        0 ≤ (vlan_run ops ctx).vlan_enabled ∧
        (vlan_run ops ctx).vlan_enabled ≤ net_vlan_max_count (vlan_run ops ctx)) ∧
    (∀ (iface : net_if) (tag : Nat), (net_eth_vlan_enable ctx iface tag).1 = .ok →
        (net_eth_vlan_enable ctx iface tag).2.vlan_enabled =
          min (ctx.vlan_enabled + 1) (net_vlan_max_count ctx)) ∧
    (∀ (iface : net_if) (tag : Nat), (net_eth_vlan_disable ctx iface tag).1 = .ok →
        (net_eth_vlan_disable ctx iface tag).2.vlan_enabled =
          max (ctx.vlan_enabled - 1) 0) := by
  refine ⟨fun ops => vlan_run_invariant ops ctx h0 h1, ?_, ?_⟩
  · intro iface tag hok
    rcases net_eth_vlan_enable_cases ctx iface tag with ⟨hne, _⟩ | ⟨_, vl, hclaim, _, _, hcnt, _⟩
    · exact absurd hok hne
    · rw [hcnt]
      simp only [net_vlan_max_count]
      split <;> omega
  · intro iface tag hok
    rcases net_eth_vlan_disable_cases ctx iface tag with ⟨hne, _⟩ | ⟨_, _, _, hcnt⟩
    · exact absurd hok hne
    · rw [hcnt]
      split <;> omega

/-- C8 witness: the bounds evaluated after a concrete enable/disable/disable
call sequence on a freshly initialized one-slot context. -/
theorem vlan_enabled_count_bounded_witness :
    0 ≤ (vlan_run [.op_enable iface_a 7, .op_disable iface_a 7, .op_disable iface_a 7]
          (ethernet_init iface_a (ctx_zero 1))).vlan_enabled ∧
    (vlan_run [.op_enable iface_a 7, .op_disable iface_a 7, .op_disable iface_a 7]
          (ethernet_init iface_a (ctx_zero 1))).vlan_enabled ≤
      net_vlan_max_count (vlan_run [.op_enable iface_a 7, .op_disable iface_a 7, .op_disable iface_a 7]
          (ethernet_init iface_a (ctx_zero 1))) :=
  (vlan_enabled_count_bounded (ethernet_init iface_a (ctx_zero 1))
      (by decide) (by decide)).1
    [.op_enable iface_a 7, .op_disable iface_a 7, .op_disable iface_a 7]

/-! ## C2: enable/disable result codes -/

theorem net_eth_vlan_enable_ok_code (ctx : ethernet_context) (iface : net_if) (tag : Nat)
    (hl2 : iface.l2_is_ethernet = true) (hinit : ctx.is_init = true)
    (htag : (tag == NET_VLAN_TAG_UNSPEC) = false)
    (hnone : get_vlan ctx iface tag = none)
    (hfree : ∃ e ∈ ctx.vlan, e.iface = some iface ∧ e.tag = NET_VLAN_TAG_UNSPEC) :
    (net_eth_vlan_enable ctx iface tag).1 = .ok := by
  rcases vlan_claim_slot_of_free iface tag ctx.vlan hfree with ⟨vl, hvl⟩
  unfold net_eth_vlan_enable
  simp [hl2, hinit, htag, hnone, hvl]

theorem net_eth_vlan_enable_already_code (ctx : ethernet_context) (iface : net_if) (tag : Nat)
    (hl2 : iface.l2_is_ethernet = true) (hinit : ctx.is_init = true)
    (htag : (tag == NET_VLAN_TAG_UNSPEC) = false)
    (hsome : (get_vlan ctx iface tag).isSome = true) :
    (net_eth_vlan_enable ctx iface tag).1 = .alreadyExists := by
  unfold net_eth_vlan_enable
  simp [hl2, hinit, htag, hsome]

theorem net_eth_vlan_enable_invalid_tag_code (ctx : ethernet_context) (iface : net_if)
    (hl2 : iface.l2_is_ethernet = true) (hinit : ctx.is_init = true) :
    (net_eth_vlan_enable ctx iface NET_VLAN_TAG_UNSPEC).1 = .invalidTag := by
  unfold net_eth_vlan_enable
  simp [hl2, hinit]

theorem net_eth_vlan_enable_not_init_code (ctx : ethernet_context) (iface : net_if) (tag : Nat)
    (hl2 : iface.l2_is_ethernet = true) (hinit : ctx.is_init = false) :
    (net_eth_vlan_enable ctx iface tag).1 = .notInitialized := by
  unfold net_eth_vlan_enable
  simp [hl2, hinit]

theorem net_eth_vlan_disable_ok_code (ctx : ethernet_context) (iface : net_if) (tag : Nat)
    (hl2 : iface.l2_is_ethernet = true)
    (htag : (tag == NET_VLAN_TAG_UNSPEC) = false)
    (hsome : (get_vlan ctx iface tag).isNone = false) :
    (net_eth_vlan_disable ctx iface tag).1 = .ok := by
  unfold net_eth_vlan_disable
  simp [hl2, htag, hsome]

theorem net_eth_vlan_disable_notfound_code (ctx : ethernet_context) (iface : net_if) (tag : Nat)
    (hl2 : iface.l2_is_ethernet = true)
    (htag : (tag == NET_VLAN_TAG_UNSPEC) = false)
    (hnone : get_vlan ctx iface tag = none) :
    (net_eth_vlan_disable ctx iface tag).1 = .notFound := by
  unfold net_eth_vlan_disable
  simp [hl2, htag, hnone]

/-- C2: on an initialized context with a free slot for the interface and no
entry yet carrying the (interface, tag) pair: the first `enable(iface, tag)`
succeeds and a second one fails with `AlreadyExists`; a `disable(iface, tag)`
on the enabled context succeeds and a second one fails with `NotFound`;
`enable` with the "unspecified" sentinel tag fails with `InvalidTag`; and on
any context never initialized `enable` fails with `NotInitialized`. -/
theorem vlan_enable_disable_error_codes (ctx : ethernet_context) (iface : net_if) (tag : Nat)
    (hl2 : iface.l2_is_ethernet = true)
    (hinit : ctx.is_init = true)
    (htag : tag ≠ NET_VLAN_TAG_UNSPEC)
    (hnone : get_vlan ctx iface tag = none)
    (hfree : ∃ e ∈ ctx.vlan, e.iface = some iface ∧ e.tag = NET_VLAN_TAG_UNSPEC) :
    (net_eth_vlan_enable ctx iface tag).1 = .ok ∧
    (net_eth_vlan_enable (net_eth_vlan_enable ctx iface tag).2 iface tag).1 = .alreadyExists ∧
    (net_eth_vlan_disable (net_eth_vlan_enable ctx iface tag).2 iface tag).1 = .ok ∧
    (net_eth_vlan_disable
        (net_eth_vlan_disable (net_eth_vlan_enable ctx iface tag).2 iface tag).2
        iface tag).1 = .notFound ∧
    (net_eth_vlan_enable ctx iface NET_VLAN_TAG_UNSPEC).1 = .invalidTag ∧
    (∀ ctx2 : ethernet_context, ctx2.is_init = false →
        (net_eth_vlan_enable ctx2 iface tag).1 = .notInitialized) := by
  have htag' : (tag == NET_VLAN_TAG_UNSPEC) = false := by
    simp [htag]
  have hok := net_eth_vlan_enable_ok_code ctx iface tag hl2 hinit htag' hnone hfree
  rcases net_eth_vlan_enable_cases ctx iface tag with ⟨hne, _⟩ | ⟨_, vl, hclaim, hvl, hinit1, _, _⟩
  · exact absurd hok hne
  have hinit1' : (net_eth_vlan_enable ctx iface tag).2.is_init = true := by rw [hinit1, hinit]
  have hmem := vlan_claim_slot_mem iface tag _ _ hclaim
  have hsome1 : (get_vlan (net_eth_vlan_enable ctx iface tag).2 iface tag).isSome = true := by
    rw [get_vlan, hvl]
    exact List.find?_isSome.mpr hmem
  have hdisok := net_eth_vlan_disable_ok_code (net_eth_vlan_enable ctx iface tag).2 iface tag
      hl2 htag' (by simp only [Option.isNone_eq_false_iff]; exact hsome1)
  rcases net_eth_vlan_disable_cases (net_eth_vlan_enable ctx iface tag).2 iface tag with
    ⟨hne2, _⟩ | ⟨_, hvl2, _, _⟩
  · exact absurd hdisok hne2
  have hclear := vlan_clear_claim_none iface tag htag' ctx.vlan vl hclaim
      (fun e he => by
        have := List.find?_eq_none.mp hnone e he
        simpa using this)
  have hnone2 : get_vlan
      (net_eth_vlan_disable (net_eth_vlan_enable ctx iface tag).2 iface tag).2 iface tag = none := by
    rw [get_vlan, hvl2, hvl]
    exact List.find?_eq_none.mpr (fun e he => by simp [hclear e he])
  refine ⟨hok, ?_, hdisok, ?_, ?_, ?_⟩
  · exact net_eth_vlan_enable_already_code _ iface tag hl2 hinit1' htag' hsome1
  · exact net_eth_vlan_disable_notfound_code _ iface tag hl2 htag' hnone2
  · exact net_eth_vlan_enable_invalid_tag_code ctx iface hl2 hinit
  · exact fun ctx2 h2 => net_eth_vlan_enable_not_init_code ctx2 iface tag hl2 h2

/-- C2 witness: the full enable/enable/disable/disable scenario evaluated on
a freshly initialized one-slot context with tag 7, plus the `InvalidTag` and
`NotInitialized` failures at concrete inputs. -/
theorem vlan_enable_disable_error_codes_witness :
    (net_eth_vlan_enable (ethernet_init iface_a (ctx_zero 1)) iface_a 7).1 = .ok ∧
    (net_eth_vlan_enable
        (net_eth_vlan_enable (ethernet_init iface_a (ctx_zero 1)) iface_a 7).2
        iface_a 7).1 = .alreadyExists ∧
    (net_eth_vlan_disable
        (net_eth_vlan_enable (ethernet_init iface_a (ctx_zero 1)) iface_a 7).2
        iface_a 7).1 = .ok ∧
    (net_eth_vlan_disable
        (net_eth_vlan_disable
          (net_eth_vlan_enable (ethernet_init iface_a (ctx_zero 1)) iface_a 7).2
          iface_a 7).2
        iface_a 7).1 = .notFound ∧
    (net_eth_vlan_enable (ethernet_init iface_a (ctx_zero 1)) iface_a
        NET_VLAN_TAG_UNSPEC).1 = .invalidTag ∧
    (net_eth_vlan_enable (ctx_zero 1) iface_a 7).1 = .notInitialized := by
  have h := vlan_enable_disable_error_codes (ethernet_init iface_a (ctx_zero 1)) iface_a 7
      (by decide) (by decide) (by decide) (by decide) (by decide)
  exact ⟨h.1, h.2.1, h.2.2.1, h.2.2.2.1, h.2.2.2.2.1, h.2.2.2.2.2 (ctx_zero 1) (by decide)⟩

/-! ## C6: `ethernet_reserve` -/

theorem ethernet_init_count (iface : net_if) (ctx : ethernet_context) :
    (ethernet_init iface ctx).vlan_enabled = ctx.vlan_enabled := by
  unfold ethernet_init
  by_cases h : iface.hw_vlan
  · simp only [h]
    cases vlan_init_claim iface ctx.vlan <;> simp
  · simp [h]

theorem ethernet_reserve_of_count_zero (ctx : ethernet_context) (iface : net_if)
    (h : ctx.vlan_enabled = 0) :
    ethernet_reserve ctx iface = net_eth_hdr_size := by
  simp [ethernet_reserve, net_eth_is_vlan_enabled, h]

/-- C6: `ethernet_reserve` returns the VLAN header size when VLAN is enabled
for the interface — in particular immediately after a successful
`net_eth_vlan_enable` on a registered interface — and the plain header size
when VLAN is not enabled — in particular on a freshly initialized context
before any enable call. -/
theorem ethernet_reserve_spec :
    (∀ (ctx : ethernet_context) (iface : net_if),
        net_eth_is_vlan_enabled ctx iface = true →
        ethernet_reserve ctx iface = net_eth_vlan_hdr_size) ∧
    (∀ (ctx : ethernet_context) (iface : net_if),
        net_eth_is_vlan_enabled ctx iface = false →
        ethernet_reserve ctx iface = net_eth_hdr_size) ∧
    (∀ (ctx : ethernet_context) (iface : net_if) (tag : Nat),
        ¬ iface.index < 0 → 0 ≤ ctx.vlan_enabled →
        (net_eth_vlan_enable ctx iface tag).1 = .ok →
        ethernet_reserve (net_eth_vlan_enable ctx iface tag).2 iface = net_eth_vlan_hdr_size) ∧
    (∀ (n : Nat) (iface : net_if),
        ethernet_reserve (ethernet_init iface (ctx_zero n)) iface = net_eth_hdr_size) := by
  refine ⟨?_, ?_, ?_, ?_⟩
  · intro ctx iface h
    simp [ethernet_reserve, h]
  · intro ctx iface h
    simp [ethernet_reserve, h]
  · intro ctx iface tag hidx h0 hok
    rcases net_eth_vlan_enable_cases ctx iface tag with ⟨hne, _⟩ | ⟨_, vl, hclaim, hvl, _, hcnt, hbit⟩
    · exact absurd hok hne
    have hlen1 : 1 ≤ ctx.vlan.length := by
      cases hl : ctx.vlan with
      | nil => rw [hl] at hclaim; simp [vlan_claim_slot] at hclaim
      | cons a as => simp [hl]
    have hbit' := hbit hidx
    have hne0 : ¬ (net_eth_vlan_enable ctx iface tag).2.vlan_enabled = 0 := by
      rw [hcnt]
      split <;> omega
    have hen : net_eth_is_vlan_enabled (net_eth_vlan_enable ctx iface tag).2 iface = true := by
      by_cases heq : ((net_eth_vlan_enable ctx iface tag).2.vlan_enabled ==
          net_vlan_max_count (net_eth_vlan_enable ctx iface tag).2) = true
      · simp [net_eth_is_vlan_enabled, hne0, heq]
      · simp [net_eth_is_vlan_enabled, hne0, heq, is_vlan_enabled_for_iface, hidx, hbit']
    simp [ethernet_reserve, hen]
  · intro n iface
    exact ethernet_reserve_of_count_zero _ _ (by rw [ethernet_init_count]; rfl)

/-- C6 witness: after the concrete successful enable on the one-slot context
the reserve is the VLAN header size; on the freshly initialized context it is
the plain header size. -/
theorem ethernet_reserve_spec_witness :
    ethernet_reserve (net_eth_vlan_enable (ethernet_init iface_a (ctx_zero 1)) iface_a 7).2
        iface_a = net_eth_vlan_hdr_size ∧
    ethernet_reserve (ethernet_init iface_a (ctx_zero 1)) iface_a = net_eth_hdr_size := by
  constructor
  · exact ethernet_reserve_spec.2.2.1 (ethernet_init iface_a (ctx_zero 1)) iface_a 7
      (by decide) (by decide) (by decide)
  · exact ethernet_reserve_spec.2.2.2 1 iface_a

/-! ## Receive-pipeline lemmas -/

theorem net_pkt_set_vlan_tci_llData (pkt : net_pkt) (t : Nat) :
    llData (net_pkt_set_vlan_tci pkt t) = llData pkt := by
  simp [llData, net_pkt_set_vlan_tci, net_pkt_frag0]

theorem ethernet_update_length_ll_reserve (iface : net_if) (pkt : net_pkt) :
    (ethernet_update_length iface pkt).ll_reserve = pkt.ll_reserve := by
  rw [ethernet_update_length]
  by_cases h : eth_declared_len pkt < NET_ETH_MINIMAL_FRAME_SIZE - net_eth_hdr_size
  · rw [if_pos h]
  · rw [if_neg h]

theorem ethernet_update_length_frag0_offset (iface : net_if) (pkt : net_pkt) :
    (net_pkt_frag0 (ethernet_update_length iface pkt)).offset =
      (net_pkt_frag0 pkt).offset := by
  rw [ethernet_update_length]
  by_cases h : eth_declared_len pkt < NET_ETH_MINIMAL_FRAME_SIZE - net_eth_hdr_size
  · rw [if_pos h]
    simp only [net_pkt_frag0]
    exact (eth_trim_head_bytes _ pkt.frags).2
  · rw [if_neg h]

/-- C5: a received plain frame carrying the IPv4 type code and addressed to
the interface's own link address yields `NET_CONTINUE`, records the plain
header length as the packet's link-layer reserve, and advances the first
fragment's data start by exactly that length. -/
theorem ethernet_recv_plain_ipv4_continue (ctx : ethernet_context)
    (arpInput : net_pkt → arp_verdict) (iface : net_if) (pkt : net_pkt)
    (hfr : pkt.frags ≠ [])
    (ht : be16 (llData pkt) 12 = NET_ETH_PTYPE_IP)
    (hdst : ethDst (llData pkt) = iface.link_addr) :
    (ethernet_recv ctx arpInput iface pkt).1 = .NET_CONTINUE ∧
    (ethernet_recv ctx arpInput iface pkt).2.ll_reserve = net_eth_hdr_size ∧
    (net_pkt_frag0 (ethernet_recv ctx arpInput iface pkt).2).offset =
      (net_pkt_frag0 pkt).offset + net_eth_hdr_size := by
  have hu : eth_recv_unwrap ctx iface pkt = (NET_ETH_PTYPE_IP, net_eth_hdr_size, pkt) := by
    unfold eth_recv_unwrap
    rw [ht]
    simp [NET_ETH_PTYPE_IP, NET_ETH_PTYPE_VLAN]
  have hcl : eth_recv_classify NET_ETH_PTYPE_IP = some .af_inet := by decide
  have hcmp : net_linkaddr_cmp iface.link_addr (ethDst (llData pkt)) = true := by
    simp [net_linkaddr_cmp, hdst]
  unfold ethernet_recv
  rw [hu]
  simp only [hcl, hcmp, Bool.not_true, Bool.and_false, Bool.false_eq_true, if_false]
  have harp : ((sa_family.af_inet == sa_family.af_inet) &&
      (NET_ETH_PTYPE_IP == NET_ETH_PTYPE_ARP)) = false := by decide
  rw [harp]
  simp only [Bool.false_eq_true, if_false]
  refine ⟨trivial, ?_, ?_⟩
  · rw [ethernet_update_length_ll_reserve]
    cases hl : pkt.frags with
    | nil => exact absurd hl hfr
    | cons f fs => simp [net_buf_pull_frag0, hl]
  · rw [ethernet_update_length_frag0_offset]
    cases hl : pkt.frags with
    | nil => exact absurd hl hfr
    | cons f fs => simp [net_buf_pull_frag0, hl, net_pkt_frag0]

theorem eth_recv_unwrap_llData (ctx : ethernet_context) (iface : net_if) (pkt : net_pkt) :
    llData (eth_recv_unwrap ctx iface pkt).2.2 = llData pkt := by
  unfold eth_recv_unwrap
  by_cases h : (net_eth_is_vlan_enabled ctx iface &&
      (be16 (llData pkt) 12 == NET_ETH_PTYPE_VLAN)) = true
  · simp [h, net_pkt_set_vlan_tci_llData]
  · simp [h]

/-- C1: on a frame whose (possibly VLAN-unwrapped) type is known, the receive
filter drops with `NotAddressedToUs` exactly the frames whose destination is
neither broadcast nor multicast nor the interface's own link address; frames
with a broadcast, multicast or own-address destination pass the filter. -/
theorem ethernet_recv_not_addressed_filter (ctx : ethernet_context)
    (arpInput : net_pkt → arp_verdict) (iface : net_if) (pkt : net_pkt)
    (hknown : (eth_recv_classify (eth_recv_unwrap ctx iface pkt).1).isSome = true) :
    (net_eth_is_addr_broadcast (ethDst (llData pkt)) = false →
      net_eth_is_addr_multicast (ethDst (llData pkt)) = false →
      ¬ iface.link_addr = ethDst (llData pkt) →
      (ethernet_recv ctx arpInput iface pkt).1 = .NET_DROP .notAddressedToUs) ∧
    ((net_eth_is_addr_broadcast (ethDst (llData pkt)) = true ∨
      net_eth_is_addr_multicast (ethDst (llData pkt)) = true ∨
      iface.link_addr = ethDst (llData pkt)) →
      (ethernet_recv ctx arpInput iface pkt).1 ≠ .NET_DROP .notAddressedToUs) := by
  have hld : llData (eth_recv_unwrap ctx iface pkt).2.2 = llData pkt :=
    eth_recv_unwrap_llData ctx iface pkt
  rcases hu : eth_recv_unwrap ctx iface pkt with ⟨t, hl, p1⟩
  rw [hu] at hld hknown
  unfold ethernet_recv
  rw [hu]
  simp only at hld hknown ⊢
  cases hc : eth_recv_classify t with
  | none => rw [hc] at hknown; simp at hknown
  | some fam =>
      simp only [hld]
      constructor
      · intro hb hm hne
        have hcmp : net_linkaddr_cmp iface.link_addr (ethDst (llData pkt)) = false := by
          simp [net_linkaddr_cmp, hne]
        simp [hb, hm, hcmp]
      · intro hpass
        have hcond : (!net_eth_is_addr_broadcast (ethDst (llData pkt)) &&
            !net_eth_is_addr_multicast (ethDst (llData pkt)) &&
            !net_linkaddr_cmp iface.link_addr (ethDst (llData pkt))) = false := by
          rcases hpass with h | h | h
          · simp [h]
          · simp [h]
          · simp [net_linkaddr_cmp, h]
        rw [hcond]
        simp only [Bool.false_eq_true, if_false]
        by_cases harp : ((fam == sa_family.af_inet) && (t == NET_ETH_PTYPE_ARP)) = true
        · rw [if_pos harp]
          cases arpInput (net_buf_pull_frag0
              { p1 with family := fam, llSrc := some (ethSrc (llData pkt)),
                        llDst := some (ethDst (llData pkt)), ll_reserve := hl } hl) <;>
            simp [arp_verdict.to_net]
        · rw [if_neg harp]
          simp

theorem eth_recv_unwrap_views (ctx : ethernet_context) (iface : net_if) (pkt : net_pkt) :
    (eth_recv_unwrap ctx iface pkt).2.2.llSrc = pkt.llSrc ∧
    (eth_recv_unwrap ctx iface pkt).2.2.llDst = pkt.llDst ∧
    (eth_recv_unwrap ctx iface pkt).2.2.family = pkt.family := by
  unfold eth_recv_unwrap
  by_cases h : (net_eth_is_vlan_enabled ctx iface &&
      (be16 (llData pkt) 12 == NET_ETH_PTYPE_VLAN)) = true
  · simp [h, net_pkt_set_vlan_tci]
  · simp [h]

theorem eth_recv_unwrap_tci (ctx : ethernet_context) (iface : net_if) (pkt : net_pkt)
    (hv : net_eth_is_vlan_enabled ctx iface = true)
    (ht : be16 (llData pkt) 12 = NET_ETH_PTYPE_VLAN) :
    (eth_recv_unwrap ctx iface pkt).2.2.vlan_tag = be16 (llData pkt) 14 % 4096 ∧
    (eth_recv_unwrap ctx iface pkt).2.2.vlan_priority = be16 (llData pkt) 14 / 8192 := by
  unfold eth_recv_unwrap
  rw [ht]
  simp [hv, net_pkt_set_vlan_tci]

/-- C9: a `NotAddressedToUs` drop is not atomic with respect to the packet:
by the time `ethernet_recv` returns it, the network family matches the frame
classification, the source and destination link-address views are already set
to the frame's addresses, and on a VLAN-tagged frame received on a
VLAN-enabled interface the Tag Control Information has been recorded.  An
unknown-ether-type drop instead leaves family and both address views
untouched. -/
theorem ethernet_recv_drop_sets_views (ctx : ethernet_context)
    (arpInput : net_pkt → arp_verdict) (iface : net_if) (pkt : net_pkt) :
    ((ethernet_recv ctx arpInput iface pkt).1 = .NET_DROP .notAddressedToUs →
      (ethernet_recv ctx arpInput iface pkt).2.llSrc = some (ethSrc (llData pkt)) ∧
      (ethernet_recv ctx arpInput iface pkt).2.llDst = some (ethDst (llData pkt)) ∧
      eth_recv_classify (eth_recv_unwrap ctx iface pkt).1 =
        some (ethernet_recv ctx arpInput iface pkt).2.family ∧
      (net_eth_is_vlan_enabled ctx iface = true →
        be16 (llData pkt) 12 = NET_ETH_PTYPE_VLAN →
        (ethernet_recv ctx arpInput iface pkt).2.vlan_tag = be16 (llData pkt) 14 % 4096 ∧
        (ethernet_recv ctx arpInput iface pkt).2.vlan_priority = be16 (llData pkt) 14 / 8192)) ∧
    ((ethernet_recv ctx arpInput iface pkt).1 = .NET_DROP .unknownEtherType →
      (ethernet_recv ctx arpInput iface pkt).2.llSrc = pkt.llSrc ∧
      (ethernet_recv ctx arpInput iface pkt).2.llDst = pkt.llDst ∧
      (ethernet_recv ctx arpInput iface pkt).2.family = pkt.family) := by
  have hld : llData (eth_recv_unwrap ctx iface pkt).2.2 = llData pkt :=
    eth_recv_unwrap_llData ctx iface pkt
  have hviews := eth_recv_unwrap_views ctx iface pkt
  have htci := eth_recv_unwrap_tci ctx iface pkt
  rcases hu : eth_recv_unwrap ctx iface pkt with ⟨t, hl, p1⟩
  rw [hu] at hld hviews htci
  unfold ethernet_recv
  rw [hu]
  simp only at hld hviews htci ⊢
  cases hc : eth_recv_classify t with
  | none =>
      constructor
      · intro h; simp at h
      · intro _; exact hviews
  | some fam =>
      simp only [hld]
      by_cases hcond : (!net_eth_is_addr_broadcast (ethDst (llData pkt)) &&
          !net_eth_is_addr_multicast (ethDst (llData pkt)) &&
          !net_linkaddr_cmp iface.link_addr (ethDst (llData pkt))) = true
      · rw [if_pos hcond]
        constructor
        · intro _
          refine ⟨rfl, rfl, rfl, fun hv ht => ?_⟩
          have := htci hv ht
          simpa using this
        · intro h; simp at h
      · rw [if_neg hcond]
        by_cases harp : ((fam == sa_family.af_inet) && (t == NET_ETH_PTYPE_ARP)) = true
        · rw [if_pos harp]
          constructor
          · cases arpInput (net_buf_pull_frag0
                { p1 with family := fam, llSrc := some (ethSrc (llData pkt)),
                          llDst := some (ethDst (llData pkt)), ll_reserve := hl } hl) <;>
              (intro h; simp [arp_verdict.to_net] at h)
          · cases arpInput (net_buf_pull_frag0
                { p1 with family := fam, llSrc := some (ethSrc (llData pkt)),
                          llDst := some (ethDst (llData pkt)), ll_reserve := hl } hl) <;>
              (intro h; simp [arp_verdict.to_net] at h)
        · rw [if_neg harp]
          constructor
          · intro h; simp at h
          · intro h; simp at h

/-! ## Concrete frames for witnesses -/

/-- A stub ARP collaborator used in witnesses. -/
def arp_stub : net_pkt → arp_verdict := fun _ => .arpDrop

/-- A freshly received packet holding one fragment with the given frame
octets (data start at the frame head, no link-layer reserve yet). -/
def pkt_of (bytes : List Nat) : net_pkt :=
  { frags := [⟨0, bytes.length, bytes⟩],
    family := .af_unspec, iface := iface_a, ll_reserve := 0,
    llSrc := none, llDst := none, ll_if := none,
    vlan_tag := NET_VLAN_TAG_UNSPEC, vlan_priority := 0, priority := 0 }

/-- A plain IPv4 frame addressed to a foreign unicast address. -/
def frame_alien : List Nat :=
  [0x02, 0, 0, 0, 0, 0x09] ++ [0x02, 0, 0, 0, 0, 0x02] ++ [0x08, 0x00] ++
  [0x45, 0, 0, 46] ++ List.replicate 42 0

/-- A plain IPv4 frame addressed to `iface_a`'s own link address, carrying an
IPv4 header with total length 46. -/
def frame_own : List Nat :=
  [0x02, 0, 0, 0, 0, 0x01] ++ [0x02, 0, 0, 0, 0, 0x02] ++ [0x08, 0x00] ++
  [0x45, 0, 0, 46] ++ List.replicate 42 0

/-- A VLAN-tagged IPv6 frame (TCI priority 5, VID 7) addressed to a foreign
unicast address. -/
def frame_vlan_alien : List Nat :=
  [0x02, 0, 0, 0, 0, 0x09] ++ [0x02, 0, 0, 0, 0, 0x02] ++
  [0x81, 0x00] ++ [0xa0, 0x07] ++ [0x86, 0xdd] ++ List.replicate 40 0

/-- A frame with an unknown ether type. -/
def frame_unknown : List Nat :=
  [0x02, 0, 0, 0, 0, 0x01] ++ [0x02, 0, 0, 0, 0, 0x02] ++ [0x12, 0x34] ++
  List.replicate 46 0

/-- A one-slot context with VLAN enabled on `iface_a` (tag 7), reached through
init and a successful enable. -/
def ctx_vlan1 : ethernet_context :=
  (net_eth_vlan_enable (ethernet_init iface_a (ctx_zero 1)) iface_a 7).2

/-- C1 witness: the foreign-unicast frame is dropped with `NotAddressedToUs`;
the own-address frame passes the filter. -/
theorem ethernet_recv_not_addressed_filter_witness :
    (ethernet_recv (ctx_zero 1) arp_stub iface_a (pkt_of frame_alien)).1 =
      .NET_DROP .notAddressedToUs ∧
    (ethernet_recv (ctx_zero 1) arp_stub iface_a (pkt_of frame_own)).1 ≠
      .NET_DROP .notAddressedToUs :=
  ⟨(ethernet_recv_not_addressed_filter (ctx_zero 1) arp_stub iface_a (pkt_of frame_alien)
        (by decide)).1 (by decide) (by decide) (by decide),
   (ethernet_recv_not_addressed_filter (ctx_zero 1) arp_stub iface_a (pkt_of frame_own)
        (by decide)).2 (Or.inr (Or.inr (by decide)))⟩

/-- C5 witness: the own-address IPv4 frame yields `NET_CONTINUE`, a link
reserve of 14 and a data start advanced by 14. -/
theorem ethernet_recv_plain_ipv4_continue_witness :
    (ethernet_recv (ctx_zero 1) arp_stub iface_a (pkt_of frame_own)).1 = .NET_CONTINUE ∧
    (ethernet_recv (ctx_zero 1) arp_stub iface_a (pkt_of frame_own)).2.ll_reserve =
      net_eth_hdr_size ∧
    (net_pkt_frag0 (ethernet_recv (ctx_zero 1) arp_stub iface_a (pkt_of frame_own)).2).offset =
      (net_pkt_frag0 (pkt_of frame_own)).offset + net_eth_hdr_size :=
  ethernet_recv_plain_ipv4_continue (ctx_zero 1) arp_stub iface_a (pkt_of frame_own)
    (by decide) (by decide) (by decide)

/-- C9 witness: the VLAN-tagged foreign frame on the VLAN-enabled context is
dropped with `NotAddressedToUs`, yet its views, family classification and
Tag Control Information are already recorded; the unknown-type frame is
dropped with its address views still unset. -/
theorem ethernet_recv_drop_sets_views_witness :
    ((ethernet_recv ctx_vlan1 arp_stub iface_a (pkt_of frame_vlan_alien)).2.llSrc =
        some (ethSrc (llData (pkt_of frame_vlan_alien))) ∧
      (ethernet_recv ctx_vlan1 arp_stub iface_a (pkt_of frame_vlan_alien)).2.vlan_tag = 7 ∧
      (ethernet_recv ctx_vlan1 arp_stub iface_a (pkt_of frame_vlan_alien)).2.vlan_priority = 5) ∧
    ((ethernet_recv ctx_vlan1 arp_stub iface_a (pkt_of frame_unknown)).2.llSrc = none ∧
      (ethernet_recv ctx_vlan1 arp_stub iface_a (pkt_of frame_unknown)).2.llDst = none) := by
  have h1 := (ethernet_recv_drop_sets_views ctx_vlan1 arp_stub iface_a
      (pkt_of frame_vlan_alien)).1 (by decide)
  have h2 := (ethernet_recv_drop_sets_views ctx_vlan1 arp_stub iface_a
      (pkt_of frame_unknown)).2 (by decide)
  have htci := h1.2.2.2 (by decide) (by decide)
  exact ⟨⟨h1.1, by simpa using htci.1, by simpa using htci.2⟩,
         ⟨by simpa using h2.1, by simpa using h2.2.1⟩⟩

/-! ## Byte-store lemmas for the transmit path -/

theorem setBytesAt_length : ∀ (vs l : List Nat) (i : Nat),
    (setBytesAt l i vs).length = l.length := by
  intro vs
  induction vs with
  | nil => intro l i; rfl
  | cons v vs ih =>
      intro l i
      rw [setBytesAt, ih, List.length_set]

theorem byteAt_setBytesAt_lt : ∀ (vs l : List Nat) (i j : Nat), j < i →
    byteAt (setBytesAt l i vs) j = byteAt l j := by
  intro vs
  induction vs with
  | nil => intro l i j _; rfl
  | cons v vs ih =>
      intro l i j hj
      rw [setBytesAt, ih _ _ _ (Nat.lt_succ_of_lt hj)]
      simp only [byteAt, List.getD_eq_getElem?_getD]
      rw [List.getElem?_set_ne (Nat.ne_of_gt hj)]

theorem byteAt_setBytesAt_at : ∀ (vs l : List Nat) (i k : Nat),
    k < vs.length → i + vs.length ≤ l.length →
    byteAt (setBytesAt l i vs) (i + k) = vs.getD k 0 := by
  intro vs
  induction vs with
  | nil => intro l i k hk _; simp at hk
  | cons v vs ih =>
      intro l i k hk hlen
      cases k with
      | zero =>
          rw [setBytesAt]
          have hji : i < i + 1 := Nat.lt_succ_self i
          simp only [Nat.add_zero]
          rw [byteAt_setBytesAt_lt vs (l.set i v) (i + 1) i hji]
          have hi : i < l.length := by
            have := hlen; simp only [List.length_cons] at this; omega
          simp only [byteAt, List.getD_eq_getElem?_getD]
          rw [List.getElem?_set_self' ]
          simp [hi]
      | succ k =>
          rw [setBytesAt]
          have : i + (k + 1) = (i + 1) + k := by omega
          rw [this, ih (l.set i v) (i + 1) k (by simpa using hk)
              (by simp only [List.length_set]; simp only [List.length_cons] at hlen; omega)]
          rfl

theorem ethDst_setBytesAt_high (m vs : List Nat) (i : Nat) (h : 6 ≤ i) :
    ethDst (setBytesAt m i vs) = ethDst m := by
  unfold ethDst
  rw [byteAt_setBytesAt_lt vs m i 0 (by omega), byteAt_setBytesAt_lt vs m i 1 (by omega),
      byteAt_setBytesAt_lt vs m i 2 (by omega), byteAt_setBytesAt_lt vs m i 3 (by omega),
      byteAt_setBytesAt_lt vs m i 4 (by omega), byteAt_setBytesAt_lt vs m i 5 (by omega)]

theorem ethDst_setBytesAt_addr (m : List Nat) (a : net_eth_addr) (h : 6 ≤ m.length) :
    ethDst (setBytesAt m 0 (addr_bytes a)) = a := by
  have hk : ∀ k, k < 6 → byteAt (setBytesAt m 0 (addr_bytes a)) k = (addr_bytes a).getD k 0 := by
    intro k hk
    simpa using byteAt_setBytesAt_at (addr_bytes a) m 0 k
      (by simpa [addr_bytes] using hk) (by simpa [addr_bytes] using h)
  unfold ethDst
  rw [hk 0 (by omega), hk 1 (by omega), hk 2 (by omega), hk 3 (by omega),
      hk 4 (by omega), hk 5 (by omega)]
  simp [addr_bytes]

theorem set_hdr_dst0_proj (pkt : net_pkt) (a : net_eth_addr) :
    (set_hdr_dst0 pkt a).family = pkt.family ∧
    (set_hdr_dst0 pkt a).iface = pkt.iface ∧
    (set_hdr_dst0 pkt a).ll_reserve = pkt.ll_reserve ∧
    (set_hdr_dst0 pkt a).llSrc = pkt.llSrc ∧
    (set_hdr_dst0 pkt a).llDst = pkt.llDst := by
  unfold set_hdr_dst0
  cases hp : pkt.frags <;> simp

theorem net_eth_fill_header_plain_dst (ctx : ethernet_context) (pkt : net_pkt)
    (frag : net_buf) (ptype : Nat) (src : Option net_eth_addr) (d : net_eth_addr)
    (hvl : net_eth_is_vlan_enabled ctx pkt.iface = false)
    (hoff : frag.offset = pkt.ll_reserve)
    (hlen : 6 ≤ frag.bytes.length) :
    (net_eth_fill_header ctx pkt frag ptype src (some d)).offset = frag.offset ∧
    ethDst ((net_eth_fill_header ctx pkt frag ptype src (some d)).bytes.drop
        ((net_eth_fill_header ctx pkt frag ptype src (some d)).offset - pkt.ll_reserve)) = d := by
  have hbase : frag.offset - pkt.ll_reserve = 0 := by omega
  unfold net_eth_fill_header
  rw [hvl]
  simp only [Bool.false_eq_true, if_false, hbase]
  refine ⟨trivial, ?_⟩
  simp only [List.drop_zero]
  cases src with
  | none =>
      rw [ethDst_setBytesAt_high _ _ _ (by omega)]
      exact ethDst_setBytesAt_addr frag.bytes d hlen
  | some s =>
      rw [ethDst_setBytesAt_high _ _ _ (by omega), ethDst_setBytesAt_high _ _ _ (by omega)]
      exact ethDst_setBytesAt_addr frag.bytes d hlen

/-- C4: transmitting an IPv4 packet whose destination address has top octet
224 writes the standard IPv4-multicast link mapping — `01:00:5e`, the second
octet with its top bit cleared, then the last two octets — as the link
destination (both as the packet's destination view and in every fragment's
header), sets the link source to the interface's own address, and does not
invoke ARP: the result holds for every `arp_prepare` collaborator, including
one that would force a drop if consulted. -/
theorem ethernet_send_ipv4_multicast (ctx : ethernet_context)
    (arp_prepare : net_pkt → Option net_pkt)
    (v6_lookup v4_lookup : List Nat → Option net_if) (iface : net_if) (pkt : net_pkt)
    (hfam : pkt.family = .af_inet)
    (hif : pkt.iface = iface)
    (hvlan : net_eth_is_vlan_enabled ctx iface = false)
    (hdst0 : ipv4_dst_byte pkt 0 = 224)
    (hlldst : pkt.llDst = none)
    (hres : pkt.ll_reserve = net_eth_hdr_size)
    (hfr : pkt.frags ≠ [])
    (hlay : ∀ f ∈ pkt.frags,
        f.offset = net_eth_hdr_size ∧ net_eth_hdr_size + 6 ≤ f.bytes.length) :
    (ethernet_send ctx arp_prepare v6_lookup v4_lookup iface pkt).1 = .NET_OK ∧
    (ethernet_send ctx arp_prepare v6_lookup v4_lookup iface pkt).2.llSrc =
      some iface.link_addr ∧
    (ethernet_send ctx arp_prepare v6_lookup v4_lookup iface pkt).2.llDst =
      some ⟨0x01, 0x00, 0x5e, ipv4_dst_byte pkt 1 % 128,
            ipv4_dst_byte pkt 2, ipv4_dst_byte pkt 3⟩ ∧
    ∀ f ∈ (ethernet_send ctx arp_prepare v6_lookup v4_lookup iface pkt).2.frags,
      ethDst (f.bytes.drop (f.offset - net_eth_hdr_size)) =
        ⟨0x01, 0x00, 0x5e, ipv4_dst_byte pkt 1 % 128,
         ipv4_dst_byte pkt 2, ipv4_dst_byte pkt 3⟩ := by
  obtain ⟨f, fs, hf⟩ := List.exists_cons_of_ne_nil hfr
  obtain ⟨hoff, hflen⟩ := hlay f (by rw [hf]; exact List.mem_cons_self _ _)
  set m : net_eth_addr :=
    ⟨0x01, 0x00, 0x5e, ipv4_dst_byte pkt 1 % 128,
     ipv4_dst_byte pkt 2, ipv4_dst_byte pkt 3⟩ with hm
  have hch : check_if_dst_is_broadcast_or_mcast iface pkt =
      (true, { set_hdr_dst0 pkt m with llSrc := some iface.link_addr }) := by
    unfold check_if_dst_is_broadcast_or_mcast
    simp [hdst0, hm]
  have hMfrags : (set_hdr_dst0 pkt m).frags =
      { f with bytes := setBytesAt f.bytes 0 (addr_bytes m) } :: fs := by
    unfold set_hdr_dst0
    rw [hf]
    simp [hoff, hres]
  have hproj := set_hdr_dst0_proj pkt m
  have hsend : ethernet_send ctx arp_prepare v6_lookup v4_lookup iface pkt =
      (.NET_OK, eth_fill_all ctx
        { set_hdr_dst0 pkt m with llSrc := some iface.link_addr, llDst := some m }
        NET_ETH_PTYPE_IP) := by
    unfold ethernet_send
    rw [hch]
    have hMdst : ({ set_hdr_dst0 pkt m with
        llSrc := some iface.link_addr } : net_pkt).llDst = none := by
      simpa [hproj.2.2.2.2] using hlldst
    have hMread : read_hdr_dst ({ set_hdr_dst0 pkt m with
        llSrc := some iface.link_addr } : net_pkt) = m := by
      unfold read_hdr_dst llData net_pkt_frag0
      simp only [hMfrags, List.headD_cons]
      have hr : ({ set_hdr_dst0 pkt m with
          llSrc := some iface.link_addr } : net_pkt).ll_reserve = pkt.ll_reserve := by
        simpa using hproj.2.2.1
      rw [hr, hoff, hres, Nat.sub_self, List.drop_zero]
      exact ethDst_setBytesAt_addr f.bytes m (by omega)
    have hMfam : ({ set_hdr_dst0 pkt m with
        llSrc := some iface.link_addr } : net_pkt).family = sa_family.af_inet := by
      simpa [hproj.1] using hfam
    have hdnone : (set_hdr_dst0 pkt m).llDst = none := by
      rw [hproj.2.2.2.2, hlldst]
    have hdfam : (set_hdr_dst0 pkt m).family = sa_family.af_inet := by
      rw [hproj.1, hfam]
    simp only [hfam, hMdst, hMread, Option.isNone_none, if_true]
    unfold eth_send_setup_hdr
    rw [hvlan]
    simp [hMfam, hdnone, hdfam]
  rw [hsend]
  have hllq : ∀ q ∈ ({ set_hdr_dst0 pkt m with
      llSrc := some iface.link_addr, llDst := some m } : net_pkt).frags,
      q.offset = net_eth_hdr_size ∧ 6 ≤ q.bytes.length := by
    intro q hq
    have : ({ set_hdr_dst0 pkt m with
        llSrc := some iface.link_addr, llDst := some m } : net_pkt).frags =
        { f with bytes := setBytesAt f.bytes 0 (addr_bytes m) } :: fs := by
      simpa using hMfrags
    rw [this] at hq
    rcases List.mem_cons.mp hq with heq | hmem
    · subst heq
      refine ⟨hoff, ?_⟩
      rw [setBytesAt_length]
      omega
    · obtain ⟨h1, h2⟩ := hlay q (by rw [hf]; exact List.mem_cons_of_mem _ hmem)
      exact ⟨h1, by omega⟩
  refine ⟨rfl, by simp [eth_fill_all, hproj.2.2.2.1], by simp [eth_fill_all], ?_⟩
  intro q hq
  simp only [eth_fill_all, List.mem_map] at hq
  obtain ⟨q0, hq0, hq0eq⟩ := hq
  obtain ⟨hq0off, hq0len⟩ := hllq q0 hq0
  have hvl2 : net_eth_is_vlan_enabled ctx
      ({ set_hdr_dst0 pkt m with
         llSrc := some iface.link_addr, llDst := some m } : net_pkt).iface = false := by
    have : ({ set_hdr_dst0 pkt m with
        llSrc := some iface.link_addr, llDst := some m } : net_pkt).iface = iface := by
      simpa [hproj.2.1] using hif
    rw [this]
    exact hvlan
  have hres2 : ({ set_hdr_dst0 pkt m with
      llSrc := some iface.link_addr, llDst := some m } : net_pkt).ll_reserve =
      net_eth_hdr_size := by
    simpa [hproj.2.2.1] using hres
  have hfill := net_eth_fill_header_plain_dst ctx
      { set_hdr_dst0 pkt m with llSrc := some iface.link_addr, llDst := some m }
      q0 NET_ETH_PTYPE_IP
      ({ set_hdr_dst0 pkt m with
         llSrc := some iface.link_addr, llDst := some m } : net_pkt).llSrc
      m hvl2 (by rw [hq0off, hres2]) hq0len
  rw [← hq0eq]
  have : ({ set_hdr_dst0 pkt m with
      llSrc := some iface.link_addr, llDst := some m } : net_pkt).llDst = some m := rfl
  rw [this] at *
  rw [hfill.1, hq0off]
  have hgoal := hfill.2
  rw [hfill.1, hq0off, hres2] at hgoal
  exact hgoal

/-- An outbound IPv4 packet (headroom of one plain header) whose IP
destination is 224.1.2.3. -/
def pkt_mcast1 : net_pkt :=
  { frags := [⟨14, 20, List.replicate 14 0 ++
      [0x45, 0, 0, 20, 0, 0, 0, 0, 0x40, 0x11, 0, 0, 10, 0, 0, 1, 224, 1, 2, 3]⟩],
    family := .af_inet, iface := iface_a, ll_reserve := 14,
    llSrc := none, llDst := none, ll_if := none,
    vlan_tag := NET_VLAN_TAG_UNSPEC, vlan_priority := 0, priority := 0 }

/-- The same outbound packet with IP destination 224.200.2.3. -/
def pkt_mcast2 : net_pkt :=
  { frags := [⟨14, 20, List.replicate 14 0 ++
      [0x45, 0, 0, 20, 0, 0, 0, 0, 0x40, 0x11, 0, 0, 10, 0, 0, 1, 224, 200, 2, 3]⟩],
    family := .af_inet, iface := iface_a, ll_reserve := 14,
    llSrc := none, llDst := none, ll_if := none,
    vlan_tag := NET_VLAN_TAG_UNSPEC, vlan_priority := 0, priority := 0 }

/-- C4 witness: 224.1.2.3 maps to 01:00:5e:01:02:03 and 224.200.2.3 maps to
01:00:5e:48:02:03 (top bit of the fourth octet cleared), the link source is
the interface address and the verdict is `NET_OK` even though the ARP
collaborator supplied here would force a drop if it were consulted. -/
theorem ethernet_send_ipv4_multicast_witness :
    (ethernet_send (ctx_zero 1) (fun _ => none) (fun _ => none) (fun _ => none)
        iface_a pkt_mcast1).1 = .NET_OK ∧
    (ethernet_send (ctx_zero 1) (fun _ => none) (fun _ => none) (fun _ => none)
        iface_a pkt_mcast1).2.llSrc = some iface_a.link_addr ∧
    (ethernet_send (ctx_zero 1) (fun _ => none) (fun _ => none) (fun _ => none)
        iface_a pkt_mcast1).2.llDst = some ⟨0x01, 0x00, 0x5e, 0x01, 0x02, 0x03⟩ ∧
    (ethernet_send (ctx_zero 1) (fun _ => none) (fun _ => none) (fun _ => none)
        iface_a pkt_mcast2).2.llDst = some ⟨0x01, 0x00, 0x5e, 0x48, 0x02, 0x03⟩ := by
  have h1 := ethernet_send_ipv4_multicast (ctx_zero 1) (fun _ => none) (fun _ => none)
      (fun _ => none) iface_a pkt_mcast1 (by decide) (by decide) (by decide) (by decide)
      (by decide) (by decide) (by decide) (by decide)
  have h2 := ethernet_send_ipv4_multicast (ctx_zero 1) (fun _ => none) (fun _ => none)
      (fun _ => none) iface_a pkt_mcast2 (by decide) (by decide) (by decide) (by decide)
      (by decide) (by decide) (by decide) (by decide)
  refine ⟨h1.1, h1.2.1, ?_, ?_⟩
  · rw [h1.2.2.1]; decide
  · rw [h2.2.2.1]; decide

/-! ## C10: shape of the trimmed fragment chain -/

/-- Length of the `i`-th fragment of a chain (0 when past the end). -/
def frag_len_at (fs : List net_buf) (i : Nat) : Nat :=
  (fs.map net_buf.len).getD i 0

/-- Sum of the lengths of the first `i` fragments. -/
def frag_len_sum_to (fs : List net_buf) (i : Nat) : Nat :=
  ((fs.map net_buf.len).take i).sum

/-- Total length of a fragment chain. -/
def frag_len_total (fs : List net_buf) : Nat :=
  (fs.map net_buf.len).sum

theorem eth_trim_length : ∀ (L : Nat) (fs : List net_buf),
    (eth_trim L fs).length = fs.length := by
  intro L fs
  induction fs generalizing L with
  | nil => rfl
  | cons f fs ih =>
      rw [eth_trim]
      by_cases h : f.len < L
      · rw [if_pos h]; simp [ih]
      · rw [if_neg h]; simp [ih]

theorem eth_trim_zero_sum : ∀ fs : List net_buf,
    frag_len_total (eth_trim 0 fs) = 0 := by
  intro fs
  induction fs with
  | nil => rfl
  | cons f fs ih =>
      rw [eth_trim_zero_cons]
      simp [frag_len_total] at ih ⊢
      exact ih

theorem eth_trim_sum : ∀ (fs : List net_buf) (L : Nat), L ≤ frag_len_total fs →
    frag_len_total (eth_trim L fs) = L := by
  intro fs
  induction fs with
  | nil =>
      intro L hL
      simp [frag_len_total] at hL
      simp [eth_trim, frag_len_total, hL]
  | cons f fs ih =>
      intro L hL
      simp only [frag_len_total, List.map_cons, List.sum_cons] at hL
      rw [eth_trim]
      by_cases h : f.len < L
      · rw [if_pos h]
        simp only [frag_len_total, List.map_cons, List.sum_cons]
        have := ih (L - f.len) (by
          simp only [frag_len_total]
          omega)
        simp only [frag_len_total] at this
        omega
      · rw [if_neg h]
        simp only [frag_len_total, List.map_cons, List.sum_cons]
        have := eth_trim_zero_sum fs
        simp only [frag_len_total] at this
        omega

theorem eth_trim_len_at : ∀ (fs : List net_buf) (L i : Nat),
    frag_len_at (eth_trim L fs) i =
      min (frag_len_at fs i) (L - frag_len_sum_to fs i) := by
  intro fs
  induction fs with
  | nil => intro L i; simp [eth_trim, frag_len_at, frag_len_sum_to]
  | cons f fs ih =>
      intro L i
      rw [eth_trim]
      by_cases h : f.len < L
      · rw [if_pos h]
        cases i with
        | zero =>
            simp only [frag_len_at, frag_len_sum_to, List.map_cons, List.getD_cons_zero,
              List.take_zero, List.sum_nil]
            omega
        | succ j =>
            have hrec := ih (L - f.len) j
            simp only [frag_len_at, frag_len_sum_to, List.map_cons, List.getD_cons_succ,
              List.take_succ_cons, List.sum_cons] at hrec ⊢
            omega
      · rw [if_neg h]
        cases i with
        | zero =>
            simp only [frag_len_at, frag_len_sum_to, List.map_cons, List.getD_cons_zero,
              List.take_zero, List.sum_nil]
            omega
        | succ j =>
            have hrec := ih 0 j
            simp only [frag_len_at, frag_len_sum_to, List.map_cons, List.getD_cons_succ,
              List.take_succ_cons, List.sum_cons] at hrec ⊢
            omega

/-- A packet whose IPv4 header declares 20 payload octets but whose fragment
chain holds only 10. -/
def pkt_short : net_pkt :=
  { frags := [⟨0, 10, [0x45, 0, 0, 20, 0, 0, 0, 0, 0x40, 0x11]⟩],
    family := .af_inet, iface := iface_a, ll_reserve := 0,
    llSrc := none, llDst := none, ll_if := none,
    vlan_tag := NET_VLAN_TAG_UNSPEC, vlan_priority := 0, priority := 0 }

/-- C10 counterexample: on a packet whose chain is shorter than the declared
IP payload length (declared 20 < 46, chain holds 10), the padding fixup
leaves the fragment lengths unchanged, so the sum of fragment lengths does
not equal the declared payload length as the claim states. -/
theorem ethernet_update_length_sum_counterexample :
    eth_declared_len pkt_short < NET_ETH_MINIMAL_FRAME_SIZE - net_eth_hdr_size ∧
    frag_len_total (ethernet_update_length iface_a pkt_short).frags ≠
      eth_declared_len pkt_short := by
  constructor
  · decide
  · decide

/-- C10 (amended): when the declared IP payload length is below the 46-octet
minimum, the padding fixup keeps every fragment in the chain; the fragment
straddling the declared-length boundary is truncated to the remaining length
and every fragment entirely beyond the boundary gets length zero; and —
provided the chain holds at least the declared length, which Ethernet
padding guarantees — the fragment lengths now sum to exactly the declared
payload length. -/
theorem ethernet_update_length_padding (iface : net_if) (pkt : net_pkt)
    (hlow : eth_declared_len pkt < NET_ETH_MINIMAL_FRAME_SIZE - net_eth_hdr_size) :
    (ethernet_update_length iface pkt).frags.length = pkt.frags.length ∧
    (eth_declared_len pkt ≤ frag_len_total pkt.frags →
      frag_len_total (ethernet_update_length iface pkt).frags = eth_declared_len pkt) ∧
    (∀ i : Nat, frag_len_sum_to pkt.frags i < eth_declared_len pkt →
      eth_declared_len pkt ≤ frag_len_sum_to pkt.frags i + frag_len_at pkt.frags i →
      frag_len_at (ethernet_update_length iface pkt).frags i =
        eth_declared_len pkt - frag_len_sum_to pkt.frags i) ∧
    (∀ i : Nat, eth_declared_len pkt ≤ frag_len_sum_to pkt.frags i →
      frag_len_at (ethernet_update_length iface pkt).frags i = 0) := by
  have hfr : (ethernet_update_length iface pkt).frags =
      eth_trim (eth_declared_len pkt) pkt.frags := by
    rw [ethernet_update_length, if_pos hlow]
  refine ⟨?_, ?_, ?_, ?_⟩
  · rw [hfr, eth_trim_length]
  · intro hle
    rw [hfr, eth_trim_sum pkt.frags _ hle]
  · intro i h1 h2
    rw [hfr, eth_trim_len_at]
    omega
  · intro i h1
    rw [hfr, eth_trim_len_at]
    omega

/-- A padded packet: the IPv4 header declares 20 payload octets, the chain
holds 15 + 10. -/
def pkt_pad : net_pkt :=
  { frags := [⟨0, 15, [0x45, 0, 0, 20, 0, 0, 0, 0, 0x40, 0x11, 0, 0, 10, 0, 0]⟩,
              ⟨0, 10, List.replicate 10 0⟩],
    family := .af_inet, iface := iface_a, ll_reserve := 0,
    llSrc := none, llDst := none, ll_if := none,
    vlan_tag := NET_VLAN_TAG_UNSPEC, vlan_priority := 0, priority := 0 }

/-- C10 witness: a packet declaring 20 payload octets over a 15+10 fragment
chain keeps both fragments, truncates the straddling second fragment to 5
octets, and the lengths sum to 20. -/
theorem ethernet_update_length_padding_witness :
    (ethernet_update_length iface_a pkt_pad).frags.length = pkt_pad.frags.length ∧
    frag_len_total (ethernet_update_length iface_a pkt_pad).frags = eth_declared_len pkt_pad ∧
    frag_len_at (ethernet_update_length iface_a pkt_pad).frags 1 =
      eth_declared_len pkt_pad - frag_len_sum_to pkt_pad.frags 1 := by
  have h := ethernet_update_length_padding iface_a pkt_pad (by decide)
  exact ⟨h.1, h.2.1 (by decide), h.2.2.1 1 (by decide) (by decide)⟩

end ZephyrEth
